import Mathlib

/-!
Verification of the `packer-plugin-vcd` builder against its specification.

The development shallowly embeds the Go sources:

* the optical-image mutator (`ISOModifier`, `src/unnamed/part_007`);
* the WMKS remote-console transport (`WMKSClient`, `src/unnamed/part_018`);
* the network allocator (`VCDDriver.FindAvailableIPExcluding`, `src/unnamed/part_015`);
* the power-on retry step (`StepRun.Run`, `src/builder/vcd/common/step_run.go`);
* the media-insert retry logic (`VirtualMachineDriver.InsertMedia`, `src/builder/vcd/driver/vm.go`);
* the catalog stage (`StepCreateTempCatalog`, `src/unnamed/part_009`).

Disk images and network byte streams are modelled as total byte functions
`Nat → Nat` (a read applies `% 256`, so every observed byte is a byte value);
external effects (cloud calls, socket reads) are passed in as explicit
schedules or result lists, and each embedded operation returns the values it
would write together with its outcome.
-/

namespace PackerVCD

/-- ASCII bytes of a string literal, used to compare on-disk magic values. -/
def asciiBytes (s : String) : List Nat := s.data.map Char.toNat

/-- ASCII lower-casing of a byte value. -/
def asciiLower (c : Nat) : Nat := if 65 ≤ c ∧ c ≤ 90 then c + 32 else c

/-- ASCII case-insensitive string equality (Go `strings.EqualFold` restricted to
the ASCII names that appear in ISO directory records and boot paths). -/
def eqFold (a b : String) : Bool :=
  (asciiBytes a).map asciiLower == (asciiBytes b).map asciiLower

/-- Byte `i` of an image modelled as a total function (file bytes are < 256). -/
def byteAt (img : Nat → Nat) (i : Nat) : Nat := img i % 256

/-- `len` consecutive bytes of `img` starting at `off` (Go `ReadAt` into a buffer). -/
def readBytes (img : Nat → Nat) (off len : Nat) : List Nat :=
  (List.range len).map (fun i => byteAt img (off + i))

/-! ### WMKS key-event wire format (`WMKSClient.SendKeyEvent`, src/unnamed/part_018) -/

/-- The 8-byte key-event message built by `WMKSClient.SendKeyEvent`:
`[127, 0, 0, 8, (scanCode>>8)&0xFF, scanCode&0xFF, down?1:0, 0]`. -/
def sendKeyEventMsg (scanCode : Nat) (down : Bool) : List Nat :=
  [127, 0, 0, 8, (scanCode >>> 8) &&& 0xFF, scanCode &&& 0xFF, if down then 1 else 0, 0]

/-! ### UDF detection (`ISOModifier.isUDFFilesystem` / `CreateModifiedISO`, src/unnamed/part_007) -/

/-- `ISOModifier.isUDFFilesystem`: scan sectors 16–20 for a UDF volume-recognition
identifier (`BEA01`, `NSR02`, `NSR03`, `TEA01`) in the five bytes at offset 1 of the
2048-byte sector. -/
def isUDFFilesystem (img : Nat → Nat) : Bool :=
  (List.range' 16 5).any fun sector =>
    let id := readBytes img (sector * 2048 + 1) 5
    id == asciiBytes "BEA01" || id == asciiBytes "NSR02" ||
      id == asciiBytes "NSR03" || id == asciiBytes "TEA01"

/-- The two rewrite paths of `ISOModifier.CreateModifiedISO`. -/
inductive MutatePath where
  | udf
  | iso9660
deriving DecidableEq

/-- The branch taken by `ISOModifier.CreateModifiedISO`: the external
extract-and-rebuild UDF path when `isUDFFilesystem` reports true, the in-process
ISO-9660 rewrite otherwise. -/
def createModifiedISOPath (img : Nat → Nat) : MutatePath :=
  if isUDFFilesystem img then .udf else .iso9660

/-- **C3.** `SendKeyEvent` emits exactly the 8 bytes
`[127, 0, 0, 8, (c>>8)&0xFF, c&0xFF, down?1:0, 0]` (length `0x0008` big-endian in
bytes 2–3, scan code big-endian in bytes 4–5); scan code 28 (ENTER) gives
`7F 00 00 08 00 1C 01 00` on press and `7F 00 00 08 00 1C 00 00` on release, and
extended code `0x148` (UP) gives `7F 00 00 08 01 48 01 00` on press. -/
theorem sendKeyEvent_wire_format :
    (∀ scanCode down, sendKeyEventMsg scanCode down =
      [127, 0, 0, 8, (scanCode >>> 8) &&& 0xFF, scanCode &&& 0xFF,
        if down then 1 else 0, 0]) ∧
    sendKeyEventMsg 28 true = [0x7F, 0x00, 0x00, 0x08, 0x00, 0x1C, 0x01, 0x00] ∧
    sendKeyEventMsg 28 false = [0x7F, 0x00, 0x00, 0x08, 0x00, 0x1C, 0x00, 0x00] ∧
    sendKeyEventMsg 0x148 true = [0x7F, 0x00, 0x00, 0x08, 0x01, 0x48, 0x01, 0x00] := by
  refine ⟨fun _ _ => rfl, by decide, by decide, by decide⟩

/-- **C4.** `CreateModifiedISO` takes the external UDF path iff some sector 16–20 of
the source carries `BEA01`, `NSR02`, `NSR03` or `TEA01` at offset 1; otherwise it
takes the in-process ISO-9660 path. -/
theorem createModifiedISO_udf_detection (img : Nat → Nat) :
    createModifiedISOPath img = .udf ↔
      ∃ s, 16 ≤ s ∧ s ≤ 20 ∧
        (readBytes img (s * 2048 + 1) 5 = asciiBytes "BEA01" ∨
         readBytes img (s * 2048 + 1) 5 = asciiBytes "NSR02" ∨
         readBytes img (s * 2048 + 1) 5 = asciiBytes "NSR03" ∨
         readBytes img (s * 2048 + 1) 5 = asciiBytes "TEA01") := by
  have hpath : createModifiedISOPath img = .udf ↔ isUDFFilesystem img = true := by
    unfold createModifiedISOPath
    split <;> simp_all
  rw [hpath]
  unfold isUDFFilesystem
  rw [List.any_eq_true]
  constructor
  · rintro ⟨s, hs, hp⟩
    have hrange := List.mem_range'_1.mp hs
    refine ⟨s, by omega, by omega, ?_⟩
    have := hp
    simp only [Bool.or_eq_true, beq_iff_eq] at this
    tauto
  · rintro ⟨s, h16, h20, hp⟩
    refine ⟨s, List.mem_range'_1.mpr ⟨h16, by omega⟩, ?_⟩
    simp only [Bool.or_eq_true, beq_iff_eq]
    tauto

/-! ### Boot detection (`ISOModifier.DetectBootConfig`, src/unnamed/part_007)

The filesystem probe `fileExists` (a go-diskfs `OpenFile` that compares
directory-entry names exactly) is passed in as a predicate on absolute paths. -/

/-- `BootConfig` as detected from an ISO (src/unnamed/part_007). -/
structure BootConfig where
  hasBIOSBoot : Bool := false
  biosBootImage : String := ""
  biosLoadSize : Nat := 0
  needsBootInfoTbl : Bool := false
  hasUEFIBoot : Bool := false
  uefiBootImage : String := ""
  volumeID : String := ""
deriving DecidableEq

/-- BIOS phase of `ISOModifier.DetectBootConfig`: the two probe loops over the
literal Windows and Linux candidate spellings, unrolled in source order, first
match wins; the stored image path is the match with its leading slash trimmed.
The Windows candidates set load size 8, the Linux candidates load size 4 plus
the boot-info-table patch flag. -/
def detectBIOSPhase (fileExists : String → Bool) (base : BootConfig) : BootConfig :=
  if fileExists "/boot/etfsboot.com" then
    { base with hasBIOSBoot := true, biosBootImage := "boot/etfsboot.com",
                biosLoadSize := 8 }
  else if fileExists "/BOOT/ETFSBOOT.COM" then
    { base with hasBIOSBoot := true, biosBootImage := "BOOT/ETFSBOOT.COM",
                biosLoadSize := 8 }
  else if fileExists "/isolinux/isolinux.bin" then
    { base with hasBIOSBoot := true, biosBootImage := "isolinux/isolinux.bin",
                biosLoadSize := 4, needsBootInfoTbl := true }
  else if fileExists "/ISOLINUX/ISOLINUX.BIN" then
    { base with hasBIOSBoot := true, biosBootImage := "ISOLINUX/ISOLINUX.BIN",
                biosLoadSize := 4, needsBootInfoTbl := true }
  else if fileExists "/syslinux/syslinux.bin" then
    { base with hasBIOSBoot := true, biosBootImage := "syslinux/syslinux.bin",
                biosLoadSize := 4, needsBootInfoTbl := true }
  else if fileExists "/boot/isolinux/isolinux.bin" then
    { base with hasBIOSBoot := true, biosBootImage := "boot/isolinux/isolinux.bin",
                biosLoadSize := 4, needsBootInfoTbl := true }
  else base

/-- UEFI phase of `ISOModifier.DetectBootConfig`: the Windows then Linux UEFI
probe loops, unrolled in source order. -/
def detectUEFIPhase (fileExists : String → Bool) (cfg : BootConfig) : BootConfig :=
  if fileExists "/efi/microsoft/boot/efisys.bin" then
    { cfg with hasUEFIBoot := true,
               uefiBootImage := "efi/microsoft/boot/efisys.bin" }
  else if fileExists "/EFI/MICROSOFT/BOOT/EFISYS.BIN" then
    { cfg with hasUEFIBoot := true,
               uefiBootImage := "EFI/MICROSOFT/BOOT/EFISYS.BIN" }
  else if fileExists "/efi/microsoft/boot/efisys_noprompt.bin" then
    { cfg with hasUEFIBoot := true,
               uefiBootImage := "efi/microsoft/boot/efisys_noprompt.bin" }
  else if fileExists "/EFI/MICROSOFT/BOOT/EFISYS_NOPROMPT.BIN" then
    { cfg with hasUEFIBoot := true,
               uefiBootImage := "EFI/MICROSOFT/BOOT/EFISYS_NOPROMPT.BIN" }
  else if fileExists "/boot/grub/efi.img" then
    { cfg with hasUEFIBoot := true, uefiBootImage := "boot/grub/efi.img" }
  else if fileExists "/boot/grub/x86_64-efi/grub.efi" then
    { cfg with hasUEFIBoot := true,
               uefiBootImage := "boot/grub/x86_64-efi/grub.efi" }
  else if fileExists "/EFI/BOOT/BOOTX64.EFI" then
    { cfg with hasUEFIBoot := true, uefiBootImage := "EFI/BOOT/BOOTX64.EFI" }
  else if fileExists "/efi/boot/bootx64.efi" then
    { cfg with hasUEFIBoot := true, uefiBootImage := "efi/boot/bootx64.efi" }
  else cfg

/-- `ISOModifier.DetectBootConfig`: the BIOS probe loops followed by the UEFI
probe loops on a config holding the source volume label. -/
def detectBootConfig (fileExists : String → Bool) (vol : String) : BootConfig :=
  detectUEFIPhase fileExists (detectBIOSPhase fileExists { volumeID := vol })

lemma detectUEFIPhase_hasBIOSBoot (fileExists : String → Bool) (cfg : BootConfig) :
    (detectUEFIPhase fileExists cfg).hasBIOSBoot = cfg.hasBIOSBoot := by
  unfold detectUEFIPhase
  repeat' split
  all_goals rfl

lemma detectUEFIPhase_biosLoadSize (fileExists : String → Bool) (cfg : BootConfig) :
    (detectUEFIPhase fileExists cfg).biosLoadSize = cfg.biosLoadSize := by
  unfold detectUEFIPhase
  repeat' split
  all_goals rfl

lemma detectUEFIPhase_needsBootInfoTbl (fileExists : String → Bool) (cfg : BootConfig) :
    (detectUEFIPhase fileExists cfg).needsBootInfoTbl = cfg.needsBootInfoTbl := by
  unfold detectUEFIPhase
  repeat' split
  all_goals rfl

/-- **C8, counterexample.** Path comparison is not case-insensitive for every
candidate: an image containing `/SYSLINUX/SYSLINUX.BIN` — a case variant of the
`syslinux/syslinux.bin` candidate, as the case-fold shows — is not detected as
BIOS-bootable. -/
theorem detectBootConfig_not_case_insensitive :
    (detectBootConfig (fun p => p == "/SYSLINUX/SYSLINUX.BIN") "D").hasBIOSBoot
        = false ∧
      eqFold "/SYSLINUX/SYSLINUX.BIN" "/syslinux/syslinux.bin" = true := by
  constructor
  · rfl
  · decide

/-- **C8, amended.** BIOS boot selection is first-match-wins over the literal
candidate spellings: `boot/etfsboot.com` (also its all-upper-case spelling) wins
with load size 8 and no boot-info-table patch; otherwise one of
`isolinux/isolinux.bin` (also all-upper-case), `syslinux/syslinux.bin`, or
`boot/isolinux/isolinux.bin` (these two lower-case only) is selected with load
size 4 and the patch required; if none of the six spellings exists, no BIOS boot
is detected.  Path comparison is exact, not case-insensitive. -/
theorem detectBootConfig_bios_selection (fileExists : String → Bool) (vol : String) :
    (fileExists "/boot/etfsboot.com" = true ∨ fileExists "/BOOT/ETFSBOOT.COM" = true →
      (detectBootConfig fileExists vol).hasBIOSBoot = true ∧
      (detectBootConfig fileExists vol).biosLoadSize = 8 ∧
      (detectBootConfig fileExists vol).needsBootInfoTbl = false) ∧
    (fileExists "/boot/etfsboot.com" = false → fileExists "/BOOT/ETFSBOOT.COM" = false →
      (fileExists "/isolinux/isolinux.bin" = true ∨
       fileExists "/ISOLINUX/ISOLINUX.BIN" = true ∨
       fileExists "/syslinux/syslinux.bin" = true ∨
       fileExists "/boot/isolinux/isolinux.bin" = true) →
      (detectBootConfig fileExists vol).hasBIOSBoot = true ∧
      (detectBootConfig fileExists vol).biosLoadSize = 4 ∧
      (detectBootConfig fileExists vol).needsBootInfoTbl = true) ∧
    (fileExists "/boot/etfsboot.com" = false → fileExists "/BOOT/ETFSBOOT.COM" = false →
      fileExists "/isolinux/isolinux.bin" = false →
      fileExists "/ISOLINUX/ISOLINUX.BIN" = false →
      fileExists "/syslinux/syslinux.bin" = false →
      fileExists "/boot/isolinux/isolinux.bin" = false →
      (detectBootConfig fileExists vol).hasBIOSBoot = false) := by
  simp only [detectBootConfig, detectUEFIPhase_hasBIOSBoot,
    detectUEFIPhase_biosLoadSize, detectUEFIPhase_needsBootInfoTbl]
  refine ⟨?_, ?_, ?_⟩
  · rintro (h | h) <;>
      by_cases h0 : fileExists "/boot/etfsboot.com" = true <;>
      simp [detectBIOSPhase, h, h0]
  · intro h1 h2 h
    rcases h with h | h | h | h <;>
      by_cases ha : fileExists "/isolinux/isolinux.bin" = true <;>
      by_cases hb : fileExists "/ISOLINUX/ISOLINUX.BIN" = true <;>
      by_cases hc : fileExists "/syslinux/syslinux.bin" = true <;>
      simp [detectBIOSPhase, h1, h2, h, ha, hb, hc]
  · intro h1 h2 h3 h4 h5 h6
    simp [detectBIOSPhase, h1, h2, h3, h4, h5, h6]

/-- **C8, witness.** The amended selection theorem at a concrete probe: an image
holding exactly `/syslinux/syslinux.bin` is detected with load size 4 and the
boot-info-table patch required. -/
theorem detectBootConfig_bios_selection_witness :
    (detectBootConfig (fun p => p == "/syslinux/syslinux.bin") "D").hasBIOSBoot = true ∧
    (detectBootConfig (fun p => p == "/syslinux/syslinux.bin") "D").biosLoadSize = 4 ∧
    (detectBootConfig (fun p => p == "/syslinux/syslinux.bin") "D").needsBootInfoTbl
      = true :=
  (detectBootConfig_bios_selection (fun p => p == "/syslinux/syslinux.bin") "D").2.1
    (by decide) (by decide) (by decide)

/-! ### Character typing (`charToScanCode` / `WMKSClient.SendString`, src/unnamed/part_018) -/

/-- The `VScanCodes` table: PS/2 scan codes by key name (src/unnamed/part_018). -/
def vScanCodes : List (String × Nat) :=
  [("ESCAPE", 1), ("1", 2), ("2", 3), ("3", 4), ("4", 5), ("5", 6), ("6", 7),
   ("7", 8), ("8", 9), ("9", 10), ("0", 11), ("MINUS", 12), ("EQUALS", 13),
   ("BACKSPACE", 14), ("TAB", 15), ("Q", 16), ("W", 17), ("E", 18), ("R", 19),
   ("T", 20), ("Y", 21), ("U", 22), ("I", 23), ("O", 24), ("P", 25),
   ("LBRACKET", 26), ("RBRACKET", 27), ("ENTER", 28), ("LCTRL", 29), ("A", 30),
   ("S", 31), ("D", 32), ("F", 33), ("G", 34), ("H", 35), ("J", 36), ("K", 37),
   ("L", 38), ("SEMICOLON", 39), ("QUOTE", 40), ("BACKTICK", 41), ("LSHIFT", 42),
   ("BACKSLASH", 43), ("Z", 44), ("X", 45), ("C", 46), ("V", 47), ("B", 48),
   ("N", 49), ("M", 50), ("COMMA", 51), ("PERIOD", 52), ("SLASH", 53),
   ("RSHIFT", 54), ("MULTIPLY", 55), ("LALT", 56), ("SPACE", 57),
   ("CAPSLOCK", 58), ("F1", 59), ("F2", 60), ("F3", 61), ("F4", 62), ("F5", 63),
   ("F6", 64), ("F7", 65), ("F8", 66), ("F9", 67), ("F10", 68), ("NUMLOCK", 69),
   ("SCROLLOCK", 70), ("KP7", 71), ("KP8", 72), ("KP9", 73), ("KPMINUS", 74),
   ("KP4", 75), ("KP5", 76), ("KP6", 77), ("KPPLUS", 78), ("KP1", 79),
   ("KP2", 80), ("KP3", 81), ("KP0", 82), ("KPDOT", 83), ("F11", 87),
   ("F12", 88), ("KPENTER", 0x11C), ("RCTRL", 0x11D), ("KPSLASH", 0x135),
   ("RALT", 0x138), ("HOME", 0x147), ("UP", 0x148), ("PAGEUP", 0x149),
   ("LEFT", 0x14B), ("RIGHT", 0x14D), ("END", 0x14F), ("DOWN", 0x150),
   ("PAGEDOWN", 0x151), ("INSERT", 0x152), ("DELETE", 0x153)]

/-- Go map indexing `m[k]`: the mapped value, or the zero value 0 when absent. -/
def mapIndex (m : List (String × Nat)) (k : String) : Nat :=
  match m.find? (fun e => e.1 == k) with
  | some e => e.2
  | none => 0

/-- `charToScanCode` (src/unnamed/part_018): scan code and shift-required flag for
a character; `(0, false)` for anything outside the supported set.  Punctuation
the source writes as character literals is given here by code point. -/
def charToScanCode (char : Char) : Nat × Bool :=
  if Char.ofNat 97 ≤ char ∧ char ≤ Char.ofNat 122 then      -- 'a'..'z'
    (mapIndex vScanCodes (String.mk [Char.ofNat (char.toNat - 32)]), false)
  else if Char.ofNat 65 ≤ char ∧ char ≤ Char.ofNat 90 then  -- 'A'..'Z'
    (mapIndex vScanCodes (String.mk [char]), true)
  else if Char.ofNat 48 ≤ char ∧ char ≤ Char.ofNat 57 then  -- '0'..'9'
    (mapIndex vScanCodes (String.mk [char]), false)
  else if char = Char.ofNat 32 then (mapIndex vScanCodes "SPACE", false)
  else if char = Char.ofNat 10 ∨ char = Char.ofNat 13 then  -- newline, return
    (mapIndex vScanCodes "ENTER", false)
  else if char = Char.ofNat 9 then (mapIndex vScanCodes "TAB", false)
  else if char = Char.ofNat 45 then (mapIndex vScanCodes "MINUS", false)
  else if char = Char.ofNat 61 then (mapIndex vScanCodes "EQUALS", false)
  else if char = Char.ofNat 91 then (mapIndex vScanCodes "LBRACKET", false)
  else if char = Char.ofNat 93 then (mapIndex vScanCodes "RBRACKET", false)
  else if char = Char.ofNat 59 then (mapIndex vScanCodes "SEMICOLON", false)
  else if char = Char.ofNat 39 then (mapIndex vScanCodes "QUOTE", false)
  else if char = Char.ofNat 96 then (mapIndex vScanCodes "BACKTICK", false)
  else if char = Char.ofNat 92 then (mapIndex vScanCodes "BACKSLASH", false)
  else if char = Char.ofNat 44 then (mapIndex vScanCodes "COMMA", false)
  else if char = Char.ofNat 46 then (mapIndex vScanCodes "PERIOD", false)
  else if char = Char.ofNat 47 then (mapIndex vScanCodes "SLASH", false)
  else if char = Char.ofNat 33 then (mapIndex vScanCodes "1", true)
  else if char = Char.ofNat 64 then (mapIndex vScanCodes "2", true)
  else if char = Char.ofNat 35 then (mapIndex vScanCodes "3", true)
  else if char = Char.ofNat 36 then (mapIndex vScanCodes "4", true)
  else if char = Char.ofNat 37 then (mapIndex vScanCodes "5", true)
  else if char = Char.ofNat 94 then (mapIndex vScanCodes "6", true)
  else if char = Char.ofNat 38 then (mapIndex vScanCodes "7", true)
  else if char = Char.ofNat 42 then (mapIndex vScanCodes "8", true)
  else if char = Char.ofNat 40 then (mapIndex vScanCodes "9", true)
  else if char = Char.ofNat 41 then (mapIndex vScanCodes "0", true)
  else if char = Char.ofNat 95 then (mapIndex vScanCodes "MINUS", true)
  else if char = Char.ofNat 43 then (mapIndex vScanCodes "EQUALS", true)
  else if char = Char.ofNat 123 then (mapIndex vScanCodes "LBRACKET", true)
  else if char = Char.ofNat 125 then (mapIndex vScanCodes "RBRACKET", true)
  else if char = Char.ofNat 58 then (mapIndex vScanCodes "SEMICOLON", true)
  else if char = Char.ofNat 34 then (mapIndex vScanCodes "QUOTE", true)
  else if char = Char.ofNat 126 then (mapIndex vScanCodes "BACKTICK", true)
  else if char = Char.ofNat 124 then (mapIndex vScanCodes "BACKSLASH", true)
  else if char = Char.ofNat 60 then (mapIndex vScanCodes "COMMA", true)
  else if char = Char.ofNat 62 then (mapIndex vScanCodes "PERIOD", true)
  else if char = Char.ofNat 63 then (mapIndex vScanCodes "SLASH", true)
  else (0, false)

/-- `WMKSClient.SendKey`: press then release of one scan code. -/
def sendKeyEvents (scanCode : Nat) : List (Nat × Bool) :=
  [(scanCode, true), (scanCode, false)]

/-- `WMKSClient.SendString` (src/unnamed/part_018) as the sequence of key events
written to a connected socket: per character, skip when the scan code is 0,
otherwise press LSHIFT first and release it last when shift is required. -/
def sendStringEvents : List Char → List (Nat × Bool)
  | [] => []
  | c :: rest =>
    let sc := charToScanCode c
    if sc.1 = 0 then sendStringEvents rest
    else
      (if sc.2 then [(mapIndex vScanCodes "LSHIFT", true)] else []) ++
        sendKeyEvents sc.1 ++
        (if sc.2 then [(mapIndex vScanCodes "LSHIFT", false)] else []) ++
        sendStringEvents rest

/-- Events of `WMKSClient.SendString` on a whole string. -/
def sendString (s : String) : List (Nat × Bool) := sendStringEvents s.data

/-- Per-character event sequence as the claim describes it: unsupported
characters (scan code 0) contribute nothing; shifted characters are wrapped in
LSHIFT (scan code 42) down before the press and up after the release. -/
def sendCharSpec (c : Char) : List (Nat × Bool) :=
  let sc := charToScanCode c
  if sc.1 = 0 then []
  else if sc.2 then [(42, true), (sc.1, true), (sc.1, false), (42, false)]
  else [(sc.1, true), (sc.1, false)]

/-- **C10.** `SendString` never fails on an unsupported character: its event
stream is exactly the concatenation of the per-character sequences, where a
character with scan code 0 is silently skipped (no event) and a shift-requiring
character is wrapped in LSHIFT down/up around its press/release.  Concretely,
the non-ASCII character é is skipped and `"A"` types as LSHIFT-down, A-down,
A-up, LSHIFT-up. -/
theorem sendString_skips_unsupported_and_wraps_shift :
    (∀ s : String, sendString s = (s.data.map sendCharSpec).flatten) ∧
    (∀ c : Char, (charToScanCode c).1 = 0 → sendCharSpec c = []) ∧
    charToScanCode (Char.ofNat 233) = (0, false) ∧
    sendString "é" = [] ∧
    sendString "A" = [(42, true), (30, true), (30, false), (42, false)] := by
  have hjoin : ∀ l : List Char, sendStringEvents l = (l.map sendCharSpec).flatten := by
    intro l
    induction l with
    | nil => rfl
    | cons c rest ih =>
      simp only [sendStringEvents, List.map_cons, List.flatten, sendCharSpec]
      rcases hsc : charToScanCode c with ⟨code, shift⟩
      by_cases h0 : code = 0
      · subst h0
        simp [ih]
      · cases shift <;> simp [h0, ih, sendKeyEvents, mapIndex, vScanCodes]
  refine ⟨fun s => hjoin s.data, ?_, by decide, ?_, ?_⟩
  · intro c h
    simp [sendCharSpec, h]
  · have := hjoin "é".data
    simpa [sendString] using this
  · have := hjoin "A".data
    simp only [sendString, this]
    decide

/-! ### RFB handshake (`WMKSClient.rfbHandshake`, src/unnamed/part_018)

The socket is modelled by the list of messages the server will deliver, in
order; the embedding returns the handshake outcome together with the list of
messages the client wrote. -/

/-- Steps 6–7 of `rfbHandshake`: write ClientInit `[1]` (shared session) and read
and discard ServerInit. -/
def rfbFinish (writes : List (List Nat)) (input : List (List Nat)) :
    Except String Unit × List (List Nat) :=
  let writes := writes ++ [[1]]
  match input with
  | [] => (.error "failed to read ServerInit", writes)
  | _ :: _ => (.ok (), writes)

/-- `WMKSClient.rfbHandshake`: read server version and echo it, read the
security-type list (count byte then type bytes), select type 1 if offered among
the first `count` types else the first type byte, write the selected byte, read
a security result when the selected type is not 1 (nonzero first four bytes is
an authentication failure), then ClientInit/ServerInit.  Go's out-of-bounds
`secTypes[1]` on a one-byte list is modelled as a distinguished error. -/
def rfbHandshake (input : List (List Nat)) : Except String Unit × List (List Nat) :=
  match input with
  | [] => (.error "failed to read server version", [])
  | versionMsg :: input1 =>
    if versionMsg.length < 12 ∨ versionMsg.take 4 ≠ asciiBytes "RFB " then
      (.error "invalid server version", [])
    else
      match input1 with
      | [] => (.error "failed to read security types", [versionMsg])
      | secTypes :: input2 =>
        if secTypes.length < 1 then
          (.error "no security types received", [versionMsg])
        else
          let numTypes := secTypes.headD 0
          if numTypes = 0 then
            (.error "server refused connection", [versionMsg])
          else
            match secTypes.drop 1 with
            | [] => (.error "panic: index out of range", [versionMsg])
            | firstOffered :: _ =>
              let selectedType :=
                if ((secTypes.drop 1).take numTypes).contains 1 then 1
                else firstOffered
              let writes := [versionMsg, [selectedType]]
              if selectedType ≠ 1 then
                match input2 with
                | [] => (.error "failed to read security result", writes)
                | secResult :: input3 =>
                  if 4 ≤ secResult.length ∧
                      (secResult.getD 0 0 ≠ 0 ∨ secResult.getD 1 0 ≠ 0 ∨
                       secResult.getD 2 0 ≠ 0 ∨ secResult.getD 3 0 ≠ 0) then
                    (.error "security authentication failed", writes)
                  else rfbFinish writes input3
              else rfbFinish writes input2

/-- **C5.** The transport echoes the server version bytes; from the list
`count :: types` it selects type 1 if offered, else the first offered type, and
writes that single byte; when type 1 is selected it writes no authentication
data, writes ClientInit `[1]` and reads ServerInit; when the selected type is
not 1 it reads a four-byte result and fails with an authentication error exactly
when that result is nonzero. -/
theorem rfbHandshake_negotiation (v : List Nat) (t : Nat) (ts : List Nat)
    (si : List Nat) (hv12 : 12 ≤ v.length) (hv4 : v.take 4 = asciiBytes "RFB ") :
    (1 ∈ t :: ts →
      rfbHandshake [v, (t :: ts).length :: t :: ts, si] = (.ok (), [v, [1], [1]]) ∧
      rfbHandshake [v, (t :: ts).length :: t :: ts] =
        (.error "failed to read ServerInit", [v, [1], [1]])) ∧
    (1 ∉ t :: ts → ∀ a b c d : Nat,
      rfbHandshake [v, (t :: ts).length :: t :: ts, [a, b, c, d], si] =
        if a = 0 ∧ b = 0 ∧ c = 0 ∧ d = 0 then (.ok (), [v, [t], [1]])
        else (.error "security authentication failed", [v, [t]])) := by
  have hvcond : ¬(v.length < 12 ∨ v.take 4 ≠ asciiBytes "RFB ") := by
    push_neg
    exact ⟨by omega, hv4⟩
  constructor
  · intro hmem
    rcases List.mem_cons.mp hmem with h | h
    · subst h
      constructor <;> simp [rfbHandshake, rfbFinish, hvcond]
    · constructor <;> simp [rfbHandshake, rfbFinish, hvcond, h]
  · intro hmem a b c d
    simp only [List.mem_cons, not_or] at hmem
    have ht1 : ¬(t = 1) := fun h => hmem.1 h.symm
    by_cases hz : a = 0 ∧ b = 0 ∧ c = 0 ∧ d = 0
    · obtain ⟨ha, hb, hc, hd⟩ := hz
      subst ha hb hc hd
      simp [rfbHandshake, rfbFinish, hvcond, hmem.1, hmem.2, ht1]
    · rw [if_neg hz]
      have hnz : ¬a = 0 ∨ ¬b = 0 ∨ ¬c = 0 ∨ ¬d = 0 := by tauto
      simp [rfbHandshake, rfbFinish, hvcond, hmem.1, hmem.2, ht1, hnz]

/-- **C5, witness.** The negotiation theorem at a concrete recorded server:
version `RFB 003.008\n`, offered security types `[1]`, a ServerInit frame; the
handshake succeeds writing only the version echo, the selected byte 1, and
ClientInit — no authentication data.  A server offering only type 2 fails
exactly on a nonzero four-byte result. -/
theorem rfbHandshake_negotiation_witness :
    rfbHandshake [asciiBytes "RFB 003.008\n", [1, 1], [0]] =
        (.ok (), [asciiBytes "RFB 003.008\n", [1], [1]]) ∧
    rfbHandshake [asciiBytes "RFB 003.008\n", [1, 2], [0, 0, 0, 1], [0]] =
        (.error "security authentication failed", [asciiBytes "RFB 003.008\n", [2]]) := by
  constructor
  · exact ((rfbHandshake_negotiation (asciiBytes "RFB 003.008\n") 1 [] [0]
      (by decide) (by decide)).1 (by decide)).1
  · have h := (rfbHandshake_negotiation (asciiBytes "RFB 003.008\n") 2 [] [0]
      (by decide) (by decide)).2 (by decide) 0 0 0 1
    simpa using h

/-! ### Network allocator (`VCDDriver.FindAvailableIPExcluding`, src/unnamed/part_015)

IPv4 addresses travel as dotted-quad strings; `net.ParseIP(..).To4()` is
modelled for that form, and the cloud objects (scopes, vApps, VMs, NICs) are
passed in as explicit data. -/

/-- Go `strings.Split` on a single separator character, over the char list. -/
def splitChar (sep : Char) : List Char → List (List Char)
  | [] => [[]]
  | c :: rest =>
    let r := splitChar sep rest
    if c = sep then [] :: r
    else
      match r with
      | [] => [[c]]
      | h :: t => (c :: h) :: t

/-- One dotted-quad octet: decimal digits, no leading zero, value ≤ 255
(`net.ParseIP` field rules). -/
def parseOctet (cs : List Char) : Option Nat :=
  if cs = [] then none
  else if ¬cs.all Char.isDigit then none
  else if 2 ≤ cs.length ∧ cs.headD (Char.ofNat 48) = Char.ofNat 48 then none
  else if 4 ≤ cs.length then none
  else
    let v := cs.foldl (fun acc c => acc * 10 + (c.toNat - 48)) 0
    if v ≤ 255 then some v else none

/-- `net.ParseIP(s).To4()` for a dotted-quad string: the four byte values, or
`none` when `s` is not a well-formed IPv4 address. -/
def parseIPv4 (s : String) : Option (List Nat) :=
  match splitChar (Char.ofNat 46) s.data with
  | [p1, p2, p3, p4] =>
    match parseOctet p1, parseOctet p2, parseOctet p3, parseOctet p4 with
    | some a, some b, some c, some d => some [a, b, c, d]
    | _, _, _, _ => none
  | _ => none

/-- `net.IP.String()` on a four-byte address. -/
def ipToString (ip : List Nat) : String :=
  match ip with
  | [a, b, c, d] =>
    toString a ++ "." ++ toString b ++ "." ++ toString c ++ "." ++ toString d
  | _ => "?"

/-- `incrementIP` working from the least-significant byte (the reversed list):
add one with byte wrap-around, stopping at the first byte that does not wrap. -/
def incrementIPRev : List Nat → List Nat
  | [] => []
  | b :: rest =>
    let b' := (b + 1) % 256
    if b' ≠ 0 then b' :: rest else b' :: incrementIPRev rest

/-- `incrementIP` (src/unnamed/part_015): increment an IP address by 1. -/
def incrementIP (ip : List Nat) : List Nat := (incrementIPRev ip.reverse).reverse

/-- Loop budget for the range walk: a four-byte walk reaches its end address in
at most `2^32` steps. -/
def ipFuel : Nat := 2 ^ 32 + 1

/-- The loop of `findFirstAvailableIP`: return the current address when it is
not allocated, stop empty at the end address, otherwise increment and go on. -/
def findFirstAvailableIPAux (allocated : String → Bool) :
    Nat → List Nat → List Nat → String
  | 0, _, _ => ""
  | fuel + 1, ip, endIP =>
    if ¬allocated (ipToString ip) then ipToString ip
    else if ip = endIP then ""
    else findFirstAvailableIPAux allocated fuel (incrementIP ip) endIP

/-- `findFirstAvailableIP` (src/unnamed/part_015): first address of the range
`start..end` not in the allocated set, `""` when the range is exhausted or an
endpoint does not parse. -/
def findFirstAvailableIP (start endS : String) (allocated : String → Bool) : String :=
  match parseIPv4 start, parseIPv4 endS with
  | some startIP, some endIP => findFirstAvailableIPAux allocated ipFuel startIP endIP
  | _, _ => ""

/-- The sequence of addresses the range loop visits, for the first-fit
characterisation. -/
def ipWalkAux : Nat → List Nat → List Nat → List (List Nat)
  | 0, _, _ => []
  | fuel + 1, ip, endIP =>
    ip :: (if ip = endIP then [] else ipWalkAux fuel (incrementIP ip) endIP)

/-- Addresses visited when walking one scope range start-to-end. -/
def rangeWalk (r : String × String) : List (List Nat) :=
  match parseIPv4 r.1, parseIPv4 r.2 with
  | some startIP, some endIP => ipWalkAux ipFuel startIP endIP
  | _, _ => []

/-- The range iteration of `FindAvailableIPExcluding`: first range that yields a
candidate wins. -/
def findInRanges (allocated : String → Bool) : List (String × String) → String
  | [] => ""
  | r :: rest =>
    let ip := findFirstAvailableIP r.1 r.2 allocated
    if ip ≠ "" then ip else findInRanges allocated rest

/-- A NIC of a VCD VM (`NetworkConnection`). -/
structure NetworkConnection where
  ipAddress : String
deriving DecidableEq

/-- A VM inside a vApp, with its optional network-connection section. -/
structure VMChild where
  networkConnectionSection : Option (List NetworkConnection)
deriving DecidableEq

/-- A vApp with its optional list of child VMs. -/
structure VAppObj where
  children : Option (List VMChild)
deriving DecidableEq

/-- NIC loop of `getUsedIPsInVDC`: collect every nonempty connection address. -/
def connUsedIPs (conns : List NetworkConnection) : List String :=
  conns.flatMap fun conn =>
    if conn.ipAddress ≠ "" then [conn.ipAddress] else []

/-- VM level of `getUsedIPsInVDC`: a `nil` network-connection section is skipped. -/
def vmUsedIPs (vm : VMChild) : List String :=
  match vm.networkConnectionSection with
  | none => []
  | some conns => connUsedIPs conns

/-- vApp level of `getUsedIPsInVDC`: inaccessible vApps (`none`) and `nil`
children are skipped. -/
def vappUsedIPs : Option VAppObj → List String
  | none => []
  | some vapp =>
    match vapp.children with
    | none => []
    | some vms => vms.flatMap vmUsedIPs

/-- `getUsedIPsInVDC` (src/unnamed/part_015): every nonempty NIC address of every
VM of every accessible vApp of the datacenter. -/
def getUsedIPsInVDC (vapps : List (Option VAppObj)) : List String :=
  vapps.flatMap vappUsedIPs

/-- One IP scope of an org VDC network. -/
structure IPScope where
  gateway : String
  netmask : String
  dns1 : String
  dns2 : String
  allocatedIPAddresses : Option (List String)
  ipRanges : Option (List (String × String))
deriving DecidableEq

/-- `NetworkInfo` (src/unnamed/part_015). -/
structure NetworkInfo where
  gateway : String
  netmask : String
  dns1 : String
  dns2 : String
  availableIP : String
deriving DecidableEq

/-- The allocated set built by `FindAvailableIPExcluding`: cloud-reported
allocations, the gateway, the caller's exclusions, and the addresses in use on
VM NICs (a list models the Go set; only membership is consumed). -/
def allocatedSet (ipScope : IPScope) (vapps : List (Option VAppObj))
    (excludeIPs : List String) : List String :=
  ipScope.allocatedIPAddresses.getD [] ++ [ipScope.gateway] ++ excludeIPs ++
    getUsedIPsInVDC vapps

/-- `VCDDriver.FindAvailableIPExcluding` (src/unnamed/part_015): on the first IP
scope, walk the ranges in order for the first address outside the allocated
set. -/
def FindAvailableIPExcluding (scopes : List IPScope) (vapps : List (Option VAppObj))
    (excludeIPs : List String) (networkName : String) : Except String NetworkInfo :=
  match scopes with
  | [] => .error ("network " ++ networkName ++ " has no IP configuration")
  | ipScope :: _ =>
    let allocated := allocatedSet ipScope vapps excludeIPs
    let availableIP :=
      match ipScope.ipRanges with
      | none => ""
      | some ranges => findInRanges (fun ip => allocated.contains ip) ranges
    if availableIP = "" then
      .error ("no available IPs in network " ++ networkName)
    else
      .ok { gateway := ipScope.gateway, netmask := ipScope.netmask,
            dns1 := ipScope.dns1, dns2 := ipScope.dns2, availableIP := availableIP }

/-- The ranges of a scope (`nil` slice reads as empty). -/
def rangesOf (s : IPScope) : List (String × String) := s.ipRanges.getD []

lemma incrementIPRev_length (l : List Nat) : (incrementIPRev l).length = l.length := by
  induction l with
  | nil => rfl
  | cons b rest ih =>
    simp only [incrementIPRev]
    split <;> simp [ih]

lemma incrementIP_length (ip : List Nat) : (incrementIP ip).length = ip.length := by
  simp [incrementIP, incrementIPRev_length]

lemma mem_ipWalkAux_length {fuel : Nat} {ip endIP j : List Nat}
    (h : j ∈ ipWalkAux fuel ip endIP) : j.length = ip.length := by
  induction fuel generalizing ip with
  | zero => simp [ipWalkAux] at h
  | succ fuel ih =>
    simp only [ipWalkAux, List.mem_cons] at h
    rcases h with rfl | h
    · rfl
    · split at h
      · simp at h
      · exact (ih h).trans (incrementIP_length ip)

lemma ipToString_ne_empty {j : List Nat} (h : j.length = 4) : ipToString j ≠ "" := by
  match j, h with
  | [a, b, c, d], _ =>
    simp only [ipToString]
    intro hEq
    have hlen := congrArg String.length hEq
    have hdot : ("." : String).length = 1 := rfl
    have hemp : ("" : String).length = 0 := rfl
    simp only [String.length_append, hdot, hemp] at hlen
    omega

lemma parseIPv4_length {s : String} {l : List Nat} (h : parseIPv4 s = some l) :
    l.length = 4 := by
  unfold parseIPv4 at h
  split at h
  · split at h
    · injection h with h
      subst h
      rfl
    · exact Option.noConfusion h
  · exact Option.noConfusion h

lemma findFirstAvailableIPAux_eq_walk (allocated : String → Bool) (fuel : Nat)
    (ip endIP : List Nat) :
    findFirstAvailableIPAux allocated fuel ip endIP =
      ((((ipWalkAux fuel ip endIP).find? fun j => !allocated (ipToString j)).map
        ipToString).getD "") := by
  induction fuel generalizing ip with
  | zero => rfl
  | succ fuel ih =>
    simp only [findFirstAvailableIPAux, ipWalkAux]
    by_cases ha : allocated (ipToString ip)
    · by_cases he : ip = endIP
      · subst he
        simp [ha, List.find?]
      · simp [ha, he, List.find?, ih]
    · simp [ha, List.find?]

lemma findInRanges_eq_flatMap (allocated : String → Bool)
    (ranges : List (String × String)) :
    findInRanges allocated ranges =
      ((((ranges.flatMap rangeWalk).find? fun j => !allocated (ipToString j)).map
        ipToString).getD "") := by
  induction ranges with
  | nil => rfl
  | cons r rest ih =>
    simp only [findInRanges, List.flatMap_cons, List.find?_append]
    rcases h1 : parseIPv4 r.1 with _ | startIP
    · simp [findFirstAvailableIP, rangeWalk, h1, ih]
    · rcases h2 : parseIPv4 r.2 with _ | endIP
      · simp [findFirstAvailableIP, rangeWalk, h1, h2, ih]
      · have hw : rangeWalk r = ipWalkAux ipFuel startIP endIP := by
          simp [rangeWalk, h1, h2]
        have hf : findFirstAvailableIP r.1 r.2 allocated =
            ((((ipWalkAux ipFuel startIP endIP).find? fun j =>
              !allocated (ipToString j)).map ipToString).getD "") := by
          simp [findFirstAvailableIP, h1, h2, findFirstAvailableIPAux_eq_walk]
        rw [hw, hf]
        rcases hfind : (ipWalkAux ipFuel startIP endIP).find?
            (fun j => !allocated (ipToString j)) with _ | j
        · simp [ih]
        · have hmem := List.mem_of_find?_eq_some hfind
          have hlen : j.length = 4 :=
            (mem_ipWalkAux_length hmem).trans (parseIPv4_length h1)
          simp [ipToString_ne_empty hlen]

lemma mem_connUsedIPs {conns : List NetworkConnection} {ip : String} :
    ip ∈ connUsedIPs conns ↔
      ∃ conn ∈ conns, conn.ipAddress = ip ∧ ¬ip = "" := by
  simp only [connUsedIPs, List.mem_flatMap]
  constructor
  · rintro ⟨c, hc, hm⟩
    split at hm
    · next hne =>
      simp only [List.mem_singleton] at hm
      exact ⟨c, hc, hm.symm, hm ▸ hne⟩
    · simp at hm
  · rintro ⟨c, hc, heq, hne⟩
    exact ⟨c, hc, by simp [heq, hne]⟩

lemma mem_vmUsedIPs {vm : VMChild} {ip : String} :
    ip ∈ vmUsedIPs vm ↔
      ∃ conns, vm.networkConnectionSection = some conns ∧
        ∃ conn ∈ conns, conn.ipAddress = ip ∧ ¬ip = "" := by
  rcases h : vm.networkConnectionSection with _ | conns <;>
    simp [vmUsedIPs, h, mem_connUsedIPs]

lemma mem_vappUsedIPs {v : Option VAppObj} {ip : String} :
    ip ∈ vappUsedIPs v ↔
      ∃ vapp, v = some vapp ∧ ∃ vms, vapp.children = some vms ∧
        ∃ vm ∈ vms, ip ∈ vmUsedIPs vm := by
  rcases v with _ | vapp
  · simp [vappUsedIPs]
  · rcases h : vapp.children with _ | vms <;>
      simp [vappUsedIPs, h, List.mem_flatMap]

lemma mem_getUsedIPsInVDC {vapps : List (Option VAppObj)} {ip : String} :
    ip ∈ getUsedIPsInVDC vapps ↔
      ∃ vappRef ∈ vapps, ∃ vapp, vappRef = some vapp ∧
        ∃ vms, vapp.children = some vms ∧ ∃ vm ∈ vms,
          ∃ conns, vm.networkConnectionSection = some conns ∧
            ∃ conn ∈ conns, conn.ipAddress = ip ∧ ¬ip = "" := by
  simp [getUsedIPsInVDC, List.mem_flatMap, mem_vappUsedIPs, mem_vmUsedIPs]

/-- The concrete scope of the claim's examples: single range
`10.0.0.10`–`10.0.0.20`, gateway `10.0.0.1`. -/
def exampleScope (allocated : Option (List String)) : IPScope :=
  { gateway := "10.0.0.1", netmask := "255.255.255.0", dns1 := "", dns2 := "",
    allocatedIPAddresses := allocated,
    ipRanges := some [("10.0.0.10", "10.0.0.20")] }

/-- **C2.** `FindAvailableIPExcluding` builds the allocated set from the
cloud-reported allocations, the gateway, every nonempty NIC address of every VM
in every vApp of the datacenter, and the caller's exclusions; it walks the first
scope's ranges in order, start to end, returning the first address outside that
set, and fails with a no-available-IPs error when no range yields one.  On the
range `10.0.0.10`–`10.0.0.20` with gateway `10.0.0.1` it returns `10.0.0.10`,
and with `10.0.0.10` allocated plus exclusion `{10.0.0.11}` it returns
`10.0.0.12`. -/
theorem FindAvailableIPExcluding_first_fit (ipScope : IPScope) (rest : List IPScope)
    (vapps : List (Option VAppObj)) (excludeIPs : List String) (networkName : String) :
    (∀ ip, (allocatedSet ipScope vapps excludeIPs).contains ip = true ↔
      (ip ∈ ipScope.allocatedIPAddresses.getD [] ∨ ip = ipScope.gateway ∨
        (∃ vappRef ∈ vapps, ∃ vapp, vappRef = some vapp ∧
          ∃ vms, vapp.children = some vms ∧ ∃ vm ∈ vms,
            ∃ conns, vm.networkConnectionSection = some conns ∧
              ∃ conn ∈ conns, conn.ipAddress = ip ∧ ¬ip = "") ∨
        ip ∈ excludeIPs)) ∧
    (FindAvailableIPExcluding (ipScope :: rest) vapps excludeIPs networkName =
      match ((rangesOf ipScope).flatMap rangeWalk).find?
          (fun j => !(allocatedSet ipScope vapps excludeIPs).contains (ipToString j)) with
      | some j => .ok { gateway := ipScope.gateway, netmask := ipScope.netmask,
                        dns1 := ipScope.dns1, dns2 := ipScope.dns2,
                        availableIP := ipToString j }
      | none => .error ("no available IPs in network " ++ networkName)) ∧
    (FindAvailableIPExcluding [] vapps excludeIPs networkName =
      .error ("network " ++ networkName ++ " has no IP configuration")) ∧
    (FindAvailableIPExcluding [exampleScope none] [] [] "net" =
      .ok ⟨"10.0.0.1", "255.255.255.0", "", "", "10.0.0.10"⟩) ∧
    (FindAvailableIPExcluding [exampleScope (some ["10.0.0.10"])] [] ["10.0.0.11"]
      "net" = .ok ⟨"10.0.0.1", "255.255.255.0", "", "", "10.0.0.12"⟩) := by
  refine ⟨?_, ?_, rfl, rfl, rfl⟩
  · intro ip
    have hc : (allocatedSet ipScope vapps excludeIPs).contains ip = true ↔
        ip ∈ allocatedSet ipScope vapps excludeIPs := by simp
    rw [hc]
    simp only [allocatedSet, List.mem_append, List.mem_singleton,
      mem_getUsedIPsInVDC]
    constructor
    · rintro (((h | h) | h) | h)
      exacts [Or.inl h, Or.inr (Or.inl h), Or.inr (Or.inr (Or.inr h)),
        Or.inr (Or.inr (Or.inl h))]
    · rintro (h | h | h | h)
      exacts [Or.inl (Or.inl (Or.inl h)), Or.inl (Or.inl (Or.inr h)), Or.inr h,
        Or.inl (Or.inr h)]
  · have havail :
        (match ipScope.ipRanges with
          | none => ""
          | some ranges =>
            findInRanges
              (fun ip => (allocatedSet ipScope vapps excludeIPs).contains ip) ranges) =
        ((((rangesOf ipScope).flatMap rangeWalk).find?
          (fun j => !(allocatedSet ipScope vapps excludeIPs).contains (ipToString j))).map
            ipToString).getD "" := by
      rcases hr : ipScope.ipRanges with _ | ranges
      · simp [rangesOf, hr]
      · simp only [rangesOf, hr, Option.getD_some]
        exact findInRanges_eq_flatMap _ ranges
    simp only [FindAvailableIPExcluding, havail]
    rcases hfind : ((rangesOf ipScope).flatMap rangeWalk).find?
        (fun j => !(allocatedSet ipScope vapps excludeIPs).contains (ipToString j))
        with _ | j
    · simp
    · have hmem := List.mem_of_find?_eq_some hfind
      rw [List.mem_flatMap] at hmem
      obtain ⟨r, _, hjr⟩ := hmem
      have hlen : j.length = 4 := by
        unfold rangeWalk at hjr
        split at hjr
        · next heq1 _ =>
          exact (mem_ipWalkAux_length hjr).trans (parseIPv4_length heq1)
        · simp at hjr
      simp [ipToString_ne_empty hlen]

/-! ### Power-on retry (`StepRun.Run`, src/builder/vcd/common/step_run.go)

Cloud effects are schedules: `powerOn n` is the outcome of the `n`-th power-on
attempt (`none` = success, `some e` = failure text), `findIP` the allocator's
answer for an exclusion list, `changeIP` the NIC reconfiguration outcome.  The
step returns its action together with the ordered trace of effect calls. -/

/-- Go `strings.Contains`. -/
def containsSubstr (s pat : String) : Bool := decide (pat.data <:+: s.data)

/-- The IP-conflict test of `StepRun.Run`. -/
def isIPConflict (errStr : String) : Bool :=
  containsSubstr errStr "IP/MAC addresses have already been used" ||
    containsSubstr errStr "IP addresses:"

/-- Observable effects of `StepRun.Run`. -/
inductive RunEvent where
  | powerOnCall (attempt : Nat)
  | allocCall (excluded : List String)
  | changeIPCall (ip : String)
  | putVmIp (ip : String)
deriving DecidableEq

/-- `multistep.StepAction` outcomes used by the step. -/
inductive StepAction where
  | actionContinue
  | actionHalt
deriving DecidableEq

/-- `defaultMaxIPRetries` (src/builder/vcd/common/step_run.go). -/
def defaultMaxIPRetries : Nat := 5

/-- The attempt loop of `StepRun.Run`, fuel `maxRetries + 1 - attempt`: power on;
on success continue; a non-conflict error halts; on a conflict append the
current `vm_ip` to the failed list, halt when driver/VDC/network are missing or
retries are exhausted, otherwise allocate excluding the failed IPs, reconfigure
the NIC, store the new `vm_ip` and retry. -/
def stepRunLoop (powerOn : Nat → Option String)
    (findIP : List String → Except String String) (changeIP : String → Option String)
    (hasDriver hasVdc : Bool) (networkName : String) (maxRetries : Nat) :
    Nat → Nat → String → List String → List RunEvent → StepAction × List RunEvent
  | 0, _, _, _, trace => (.actionHalt, trace)
  | fuel + 1, attempt, vmIp, failedIPs, trace =>
    let trace := trace ++ [.powerOnCall attempt]
    match powerOn attempt with
    | none => (.actionContinue, trace)
    | some errStr =>
      if ¬isIPConflict errStr then (.actionHalt, trace)
      else
        let failedIPs := if vmIp ≠ "" then failedIPs ++ [vmIp] else failedIPs
        if ¬(hasDriver ∧ hasVdc ∧ networkName ≠ "") then (.actionHalt, trace)
        else if maxRetries ≤ attempt then (.actionHalt, trace)
        else
          let trace := trace ++ [.allocCall failedIPs]
          match findIP failedIPs with
          | .error _ => (.actionHalt, trace)
          | .ok newIP =>
            let trace := trace ++ [.changeIPCall newIP]
            match changeIP newIP with
            | some _ => (.actionHalt, trace)
            | none =>
              stepRunLoop powerOn findIP changeIP hasDriver hasVdc networkName
                maxRetries fuel (attempt + 1) newIP failedIPs
                (trace ++ [.putVmIp newIP])

/-- `StepRun.Run` (src/builder/vcd/common/step_run.go): retries default to 5 when
the configured value is 0. -/
def StepRun_Run (powerOn : Nat → Option String)
    (findIP : List String → Except String String) (changeIP : String → Option String)
    (hasDriver hasVdc : Bool) (networkName : String) (maxRetriesCfg : Nat)
    (vmIp0 : String) : StepAction × List RunEvent :=
  let maxRetries := if maxRetriesCfg = 0 then defaultMaxIPRetries else maxRetriesCfg
  stepRunLoop powerOn findIP changeIP hasDriver hasVdc networkName maxRetries
    (maxRetries + 1) 0 vmIp0 [] []

/-- Number of power-on attempts recorded in a trace. -/
def countPowerOn (tr : List RunEvent) : Nat :=
  tr.countP fun e =>
    match e with
    | .powerOnCall _ => true
    | _ => false

lemma stepRunLoop_trace_append (powerOn : Nat → Option String)
    (findIP : List String → Except String String) (changeIP : String → Option String)
    (hd hv : Bool) (nn : String) (mr : Nat) :
    ∀ fuel attempt vmIp failed trace,
      stepRunLoop powerOn findIP changeIP hd hv nn mr fuel attempt vmIp failed trace =
        ((stepRunLoop powerOn findIP changeIP hd hv nn mr fuel attempt vmIp failed []).1,
          trace ++
            (stepRunLoop powerOn findIP changeIP hd hv nn mr fuel attempt vmIp failed []).2) := by
  intro fuel
  induction fuel with
  | zero => intro attempt vmIp failed trace; simp [stepRunLoop]
  | succ fuel ih =>
    intro attempt vmIp failed trace
    simp only [stepRunLoop]
    rcases hpo : powerOn attempt with _ | errStr
    · simp
    · by_cases hc : isIPConflict errStr
      · simp only [hc, not_true_eq_false, Bool.false_eq_true, if_false]
        by_cases hdvn : hd = true ∧ hv = true ∧ ¬nn = ""
        · simp only [if_neg (not_not_intro hdvn)]
          by_cases hret : mr ≤ attempt
          · simp [hret]
          · simp only [if_neg hret]
            rcases hfi : findIP (if vmIp ≠ "" then failed ++ [vmIp] else failed)
                with e | newIP
            · simp
            · rcases hch : changeIP newIP with _ | e
              · simp only [hch]
                rw [ih (attempt + 1) newIP
                    (if vmIp ≠ "" then failed ++ [vmIp] else failed)
                    (trace ++ [RunEvent.powerOnCall attempt] ++
                      [RunEvent.allocCall
                        (if vmIp ≠ "" then failed ++ [vmIp] else failed)] ++
                      [RunEvent.changeIPCall newIP] ++ [RunEvent.putVmIp newIP]),
                  ih (attempt + 1) newIP
                    (if vmIp ≠ "" then failed ++ [vmIp] else failed)
                    ([] ++ [RunEvent.powerOnCall attempt] ++
                      [RunEvent.allocCall
                        (if vmIp ≠ "" then failed ++ [vmIp] else failed)] ++
                      [RunEvent.changeIPCall newIP] ++ [RunEvent.putVmIp newIP])]
                simp
              · simp [hch]
        · simp only [if_pos hdvn]
          simp
      · simp [hc]

lemma stepRunLoop_head (powerOn : Nat → Option String)
    (findIP : List String → Except String String) (changeIP : String → Option String)
    (hd hv : Bool) (nn : String) (mr fuel attempt : Nat) (vmIp : String)
    (failed : List String) :
    ∃ rest,
      (stepRunLoop powerOn findIP changeIP hd hv nn mr (fuel + 1) attempt vmIp failed
        []).2 = RunEvent.powerOnCall attempt :: rest := by
  simp only [stepRunLoop, List.nil_append]
  rcases hpo : powerOn attempt with _ | errStr
  · exact ⟨[], rfl⟩
  · by_cases hc : isIPConflict errStr
    · simp only [hc, not_true_eq_false, Bool.false_eq_true, if_false]
      by_cases hdvn : hd = true ∧ hv = true ∧ ¬nn = ""
      · rw [if_neg (by tauto)]
        by_cases hret : mr ≤ attempt
        · rw [if_pos hret]
          exact ⟨[], rfl⟩
        · rw [if_neg hret]
          rcases hfi : findIP (if vmIp ≠ "" then failed ++ [vmIp] else failed)
              with e | newIP
          · simp only [hfi]
            exact ⟨_, rfl⟩
          · simp only [hfi]
            rcases hch : changeIP newIP with _ | e
            · simp only [hch]
              rw [stepRunLoop_trace_append]
              exact ⟨_, rfl⟩
            · simp only [hch]
              exact ⟨_, rfl⟩
      · rw [if_pos (by tauto)]
        exact ⟨[], rfl⟩
    · simp only [hc, Bool.false_eq_true, not_false_eq_true, if_true]
      exact ⟨[], rfl⟩

lemma stepRunLoop_conflict_step (powerOn : Nat → Option String)
    (findIP : List String → Except String String) (changeIP : String → Option String)
    (nn : String) (mr fuel attempt : Nat) (vmIp : String) (failed : List String)
    (trace : List RunEvent) (e newIP : String)
    (hpo : powerOn attempt = some e) (hc : isIPConflict e = true) (hvm : vmIp ≠ "")
    (hnn : nn ≠ "") (hret : ¬mr ≤ attempt)
    (hfi : findIP (failed ++ [vmIp]) = .ok newIP) (hch : changeIP newIP = none) :
    stepRunLoop powerOn findIP changeIP true true nn mr (fuel + 1) attempt vmIp
        failed trace =
      stepRunLoop powerOn findIP changeIP true true nn mr fuel (attempt + 1) newIP
        (failed ++ [vmIp])
        (trace ++ [.powerOnCall attempt, .allocCall (failed ++ [vmIp]),
          .changeIPCall newIP, .putVmIp newIP]) := by
  simp only [stepRunLoop, hpo, hc, not_true_eq_false, Bool.false_eq_true, if_false,
    ne_eq, hvm, not_false_eq_true, if_true, hnn, and_self, and_true, true_and,
    eq_self_iff_true, hret, hfi, hch, List.append_assoc, List.singleton_append,
    List.cons_append, List.nil_append]

lemma stepRunLoop_powerOn_count (powerOn : Nat → Option String)
    (findIP : List String → Except String String) (changeIP : String → Option String)
    (hd hv : Bool) (nn : String) (mr : Nat) :
    ∀ fuel attempt vmIp failed trace,
      countPowerOn
          (stepRunLoop powerOn findIP changeIP hd hv nn mr fuel attempt vmIp failed
            trace).2 ≤
        countPowerOn trace + fuel := by
  intro fuel
  induction fuel with
  | zero => intro attempt vmIp failed trace; simp [stepRunLoop]
  | succ fuel ih =>
    intro attempt vmIp failed trace
    have hone : ∀ tr : List RunEvent,
        countPowerOn (tr ++ [RunEvent.powerOnCall attempt]) = countPowerOn tr + 1 := by
      intro tr
      simp [countPowerOn, List.countP_append, List.countP_cons]
    have halloc : ∀ (tr : List RunEvent) (l : List String),
        countPowerOn (tr ++ [RunEvent.allocCall l]) = countPowerOn tr := by
      intro tr l
      simp [countPowerOn, List.countP_append, List.countP_cons]
    have hchg : ∀ (tr : List RunEvent) (ip : String),
        countPowerOn (tr ++ [RunEvent.changeIPCall ip]) = countPowerOn tr := by
      intro tr ip
      simp [countPowerOn, List.countP_append, List.countP_cons]
    have hput : ∀ (tr : List RunEvent) (ip : String),
        countPowerOn (tr ++ [RunEvent.putVmIp ip]) = countPowerOn tr := by
      intro tr ip
      simp [countPowerOn, List.countP_append, List.countP_cons]
    simp only [stepRunLoop]
    rcases hpo : powerOn attempt with _ | errStr
    · simp only [hpo, hone]
      omega
    · simp only [hpo]
      by_cases hc : isIPConflict errStr
      · simp only [hc, not_true_eq_false, Bool.false_eq_true, if_false]
        by_cases hdvn : hd = true ∧ hv = true ∧ ¬nn = ""
        · rw [if_neg (not_not_intro hdvn)]
          by_cases hret : mr ≤ attempt
          · rw [if_pos hret]
            simp only [hone]
            omega
          · rw [if_neg hret]
            rcases hfi : findIP (if vmIp ≠ "" then failed ++ [vmIp] else failed)
                with e | newIP
            · simp only [hfi, halloc, hone]
              omega
            · simp only [hfi]
              rcases hch : changeIP newIP with _ | e
              · simp only [hch]
                refine le_trans (ih _ _ _ _) ?_
                rw [hput, hchg, halloc, hone]
                omega
              · simp only [hch, hchg, halloc, hone]
                omega
        · rw [if_pos hdvn]
          simp only [hone]
          omega
      · simp only [hc, Bool.false_eq_true, not_false_eq_true, if_true, hone]
        omega

/-- **C6.** A power-on failure whose text matches neither conflict pattern halts
the build at once (one attempt, no allocator call); a matching failure appends
the current `vm_ip` to the failed list, calls the allocator excluding it,
reconfigures the NIC to the returned IP, stores it as the new `vm_ip` and
retries power-on; with the default configuration the step makes at most six
power-on attempts (five retries). -/
theorem stepRun_ip_conflict_retry (powerOn : Nat → Option String)
    (findIP : List String → Except String String) (changeIP : String → Option String)
    (vmIp0 : String) (networkName : String) :
    (∀ e, powerOn 0 = some e → isIPConflict e = false →
      StepRun_Run powerOn findIP changeIP true true networkName 0 vmIp0 =
        (.actionHalt, [.powerOnCall 0])) ∧
    (∀ e newIP, powerOn 0 = some e → isIPConflict e = true → vmIp0 ≠ "" →
      networkName ≠ "" → findIP [vmIp0] = .ok newIP → changeIP newIP = none →
      ∃ tr, (StepRun_Run powerOn findIP changeIP true true networkName 0 vmIp0).2 =
        [.powerOnCall 0, .allocCall [vmIp0], .changeIPCall newIP, .putVmIp newIP,
          .powerOnCall 1] ++ tr) ∧
    countPowerOn
        (StepRun_Run powerOn findIP changeIP true true networkName 0 vmIp0).2 ≤ 6 := by
  refine ⟨?_, ?_, ?_⟩
  · intro e hpo hnc
    simp [StepRun_Run, defaultMaxIPRetries, stepRunLoop, hpo, hnc]
  · intro e newIP hpo hc hvm hnn hfi hch
    have hmr : ¬(defaultMaxIPRetries ≤ 0) := by decide
    have hfi' : findIP ([] ++ [vmIp0]) = .ok newIP := by simpa using hfi
    have hstep :
        StepRun_Run powerOn findIP changeIP true true networkName 0 vmIp0 =
          stepRunLoop powerOn findIP changeIP true true networkName
            defaultMaxIPRetries defaultMaxIPRetries 1 newIP ([] ++ [vmIp0])
            ([] ++ [.powerOnCall 0, .allocCall ([] ++ [vmIp0]), .changeIPCall newIP,
              .putVmIp newIP]) := by
      have hrun : StepRun_Run powerOn findIP changeIP true true networkName 0 vmIp0 =
          stepRunLoop powerOn findIP changeIP true true networkName
            defaultMaxIPRetries (defaultMaxIPRetries + 1) 0 vmIp0 [] [] := by
        simp [StepRun_Run]
      rw [hrun]
      exact stepRunLoop_conflict_step powerOn findIP changeIP networkName
        defaultMaxIPRetries defaultMaxIPRetries 0 vmIp0 [] [] e newIP hpo hc hvm hnn
        hmr hfi' hch
    rw [hstep, stepRunLoop_trace_append]
    obtain ⟨rest, hrest⟩ := stepRunLoop_head powerOn findIP changeIP true true
      networkName defaultMaxIPRetries 4 1 newIP ([] ++ [vmIp0])
    refine ⟨rest, ?_⟩
    have h5 : defaultMaxIPRetries = 4 + 1 := rfl
    rw [h5] at hrest ⊢
    rw [hrest]
    simp
  · have h := stepRunLoop_powerOn_count powerOn findIP changeIP true true
      networkName defaultMaxIPRetries (defaultMaxIPRetries + 1) 0 vmIp0 [] []
    simpa [StepRun_Run, countPowerOn, defaultMaxIPRetries] using h

/-- **C6, witness.** The retry theorem at concrete schedules: a power-on failing
with `permission denied` halts after one attempt with no allocator call, and one
failing with an `IP addresses:` conflict is followed by an allocator call
excluding the failed `10.0.0.5`, a NIC change to `10.0.0.6`, a `vm_ip` update,
and a second power-on. -/
theorem stepRun_ip_conflict_retry_witness :
    StepRun_Run (fun _ => some "permission denied") (fun _ => .ok "10.0.0.6")
        (fun _ => none) true true "net" 0 "10.0.0.5" =
      (.actionHalt, [.powerOnCall 0]) ∧
    (∃ tr,
      (StepRun_Run (fun n => if n = 0 then some "error: IP addresses: in use" else none)
          (fun _ => .ok "10.0.0.6") (fun _ => none) true true "net" 0
          "10.0.0.5").2 =
        [.powerOnCall 0, .allocCall ["10.0.0.5"], .changeIPCall "10.0.0.6",
          .putVmIp "10.0.0.6", .powerOnCall 1] ++ tr) := by
  constructor
  · exact (stepRun_ip_conflict_retry (fun _ => some "permission denied")
      (fun _ => .ok "10.0.0.6") (fun _ => none) "10.0.0.5" "net").1
      "permission denied" rfl (by decide)
  · exact (stepRun_ip_conflict_retry
      (fun n => if n = 0 then some "error: IP addresses: in use" else none)
      (fun _ => .ok "10.0.0.6") (fun _ => none) "10.0.0.5" "net").2.1
      "error: IP addresses: in use" "10.0.0.6" rfl (by decide) (by decide)
      (by decide) rfl rfl

/-! ### Media insertion (`VirtualMachineDriver.InsertMedia`, src/builder/vcd/driver/vm.go)

`getMedia i` is the outcome of the `i`-th status poll (`GetMediaByName` plus the
media's status integer), `insert i` the outcome of the `i`-th insert attempt
(`none` = task completed).  The embedding returns the outcome and the ordered
trace of polls, sleeps (with their length in seconds) and insert attempts. -/

/-- Observable effects of `InsertMedia`. -/
inductive MediaEvent where
  | statusCheck (i : Nat)
  | sleep (seconds : Nat)
  | insertAttempt (i : Nat)
deriving DecidableEq

/-- The insert-retry predicate: error text contains `409` or
`not supported in the current state`. -/
def isRetryableInsertError (e : String) : Bool :=
  containsSubstr e "409" || containsSubstr e "not supported in the current state"

/-- The status poll loop of `InsertMedia` (`maxStatusRetries = 30`,
`statusRetryDelay = 10 s`), fuel `30 - i`: fetch the media (a fetch error
returns at once), break at status 1 (RESOLVED), fail at the 30th unsuccessful
iteration, otherwise sleep 10 s and poll again. -/
def statusLoop (getMedia : Nat → Except String Int) :
    Nat → Nat → List MediaEvent → Except String Unit × List MediaEvent
  | 0, _, trace => (.error "status loop exit", trace)
  | fuel + 1, i, trace =>
    let trace := trace ++ [.statusCheck i]
    match getMedia i with
    | .error e => (.error ("error getting media: " ++ e), trace)
    | .ok status =>
      if status = 1 then (.ok (), trace)
      else if i = 30 - 1 then
        (.error "media never reached RESOLVED status", trace)
      else statusLoop getMedia fuel (i + 1) (trace ++ [.sleep 10])

/-- The insert-retry loop of `InsertMedia` (`maxRetries = 12`,
`retryDelay = 30 s`), fuel `12 - i`: a retryable failure sleeps 30 s and tries
again, any other failure returns at once, exhaustion reports the last retryable
error. -/
def insertLoop (insert : Nat → Option String) :
    Nat → Nat → String → List MediaEvent → Except String Unit × List MediaEvent
  | 0, _, lastErr, trace =>
    (.error ("error inserting media after 12 retries: " ++ lastErr), trace)
  | fuel + 1, i, lastErr, trace =>
    let trace := trace ++ [.insertAttempt i]
    match insert i with
    | none => (.ok (), trace)
    | some e =>
      if isRetryableInsertError e then
        insertLoop insert fuel (i + 1) e (trace ++ [.sleep 30])
      else (.error ("error inserting media: " ++ e), trace)

/-- `VirtualMachineDriver.InsertMedia`: poll the media status to RESOLVED, only
then run the insert-retry loop. -/
def InsertMedia (getMedia : Nat → Except String Int) (insert : Nat → Option String) :
    Except String Unit × List MediaEvent :=
  match statusLoop getMedia 30 0 [] with
  | (.error e, trace) => (.error e, trace)
  | (.ok _, trace) => insertLoop insert 12 0 "" trace

/-- The trace left by a full unsuccessful status poll: 30 checks separated by
29 ten-second sleeps, and never an insert attempt. -/
def statusFailTrace : List MediaEvent :=
  (List.range 29).flatMap (fun k => [.statusCheck k, .sleep 10]) ++ [.statusCheck 29]

/-- Number of insert attempts recorded in a trace. -/
def countInserts (tr : List MediaEvent) : Nat :=
  tr.countP fun e =>
    match e with
    | .insertAttempt _ => true
    | _ => false

lemma statusLoop_never (getMedia : Nat → Except String Int) (s : Nat → Int)
    (hs : ∀ i, i < 30 → getMedia i = .ok (s i)) (hne : ∀ i, i < 30 → ¬s i = 1) :
    ∀ fuel i trace, fuel + i = 30 → 1 ≤ fuel →
      statusLoop getMedia fuel i trace =
        (.error "media never reached RESOLVED status",
          trace ++ ((List.range' i (29 - i)).flatMap
            (fun k => [MediaEvent.statusCheck k, MediaEvent.sleep 10]) ++
              [MediaEvent.statusCheck 29])) := by
  intro fuel
  induction fuel with
  | zero => intro i trace hi hf; omega
  | succ fuel ih =>
    intro i trace hi _
    simp only [statusLoop, hs i (by omega)]
    rw [if_neg (hne i (by omega))]
    by_cases h29 : i = 29
    · subst h29
      rw [if_pos rfl]
      simp
    · rw [if_neg (show ¬(i = 30 - 1) by omega)]
      rw [ih (i + 1) (trace ++ [MediaEvent.statusCheck i] ++ [MediaEvent.sleep 10])
        (by omega) (by omega)]
      have hr : 29 - i = (29 - (i + 1)) + 1 := by omega
      rw [hr, List.range'_succ]
      simp

lemma statusLoop_no_inserts (getMedia : Nat → Except String Int) :
    ∀ fuel i trace,
      countInserts (statusLoop getMedia fuel i trace).2 = countInserts trace := by
  intro fuel
  induction fuel with
  | zero => intro i trace; simp [statusLoop]
  | succ fuel ih =>
    intro i trace
    simp only [statusLoop]
    rcases hg : getMedia i with e | status
    · simp [hg, countInserts, List.countP_append, List.countP_cons]
    · simp only [hg]
      by_cases h1 : status = 1
      · simp [h1, countInserts, List.countP_append, List.countP_cons]
      · by_cases h29 : i = 30 - 1
        · simp [h1, h29, countInserts, List.countP_append, List.countP_cons]
        · rw [if_neg h1, if_neg h29, ih]
          simp [countInserts, List.countP_append, List.countP_cons]

lemma insertLoop_count (insert : Nat → Option String) :
    ∀ fuel i lastErr trace,
      countInserts (insertLoop insert fuel i lastErr trace).2 ≤
        countInserts trace + fuel := by
  intro fuel
  induction fuel with
  | zero => intro i lastErr trace; simp [insertLoop]
  | succ fuel ih =>
    intro i lastErr trace
    simp only [insertLoop]
    rcases hin : insert i with _ | e
    · simp [hin, countInserts, List.countP_append, List.countP_cons]
    · simp only [hin]
      by_cases hr : isRetryableInsertError e
      · rw [if_pos hr]
        refine le_trans (ih _ _ _) ?_
        simp [countInserts, List.countP_append, List.countP_cons]
        omega
      · rw [if_neg hr]
        simp [countInserts, List.countP_append, List.countP_cons]

lemma insertLoop_exhausted (insert : Nat → Option String) (e : Nat → String)
    (he : ∀ i, i < 12 → insert i = some (e i))
    (hr : ∀ i, i < 12 → isRetryableInsertError (e i) = true) :
    ∀ fuel i lastErr trace, fuel + i = 12 → 1 ≤ fuel →
      insertLoop insert fuel i lastErr trace =
        (.error ("error inserting media after 12 retries: " ++ e 11),
          trace ++ (List.range' i (12 - i)).flatMap
            (fun k => [MediaEvent.insertAttempt k, MediaEvent.sleep 30])) := by
  intro fuel
  induction fuel with
  | zero => intro i lastErr trace hi hf; omega
  | succ fuel ih =>
    intro i lastErr trace hi _
    simp only [insertLoop, he i (by omega)]
    rw [if_pos (hr i (by omega))]
    by_cases h11 : i = 11
    · subst h11
      have hf0 : fuel = 0 := by omega
      subst hf0
      simp [insertLoop]
    · rw [ih (i + 1) (e i)
        (trace ++ [MediaEvent.insertAttempt i] ++ [MediaEvent.sleep 30])
        (by omega) (by omega)]
      have hrw : 12 - i = (12 - (i + 1)) + 1 := by omega
      rw [hrw, List.range'_succ]
      simp

/-- **C7.** `InsertMedia` first polls the media status every 10 seconds for up to
30 iterations; if the media never reaches RESOLVED (status 1) it fails without a
single insert attempt.  Only once resolved does it run the insert loop, which
returns a non-retryable error immediately after one attempt, retries errors
containing `409` or `not supported in the current state` at 30-second intervals
up to 12 attempts before reporting the last error, and never makes more than 12
attempts. -/
theorem insertMedia_poll_then_retry (getMedia : Nat → Except String Int)
    (insert : Nat → Option String) :
    (∀ s : Nat → Int, (∀ i, i < 30 → getMedia i = .ok (s i)) →
      (∀ i, i < 30 → ¬s i = 1) →
      InsertMedia getMedia insert =
        (.error "media never reached RESOLVED status", statusFailTrace)) ∧
    countInserts statusFailTrace = 0 ∧
    (getMedia 0 = .ok 1 →
      InsertMedia getMedia insert = insertLoop insert 12 0 "" [.statusCheck 0]) ∧
    (getMedia 0 = .ok 1 → ∀ e, insert 0 = some e →
      isRetryableInsertError e = false →
      InsertMedia getMedia insert =
        (.error ("error inserting media: " ++ e),
          [.statusCheck 0, .insertAttempt 0])) ∧
    (getMedia 0 = .ok 1 → ∀ e : Nat → String,
      (∀ i, i < 12 → insert i = some (e i)) →
      (∀ i, i < 12 → isRetryableInsertError (e i) = true) →
      InsertMedia getMedia insert =
        (.error ("error inserting media after 12 retries: " ++ e 11),
          .statusCheck 0 :: (List.range' 0 12).flatMap
            (fun k => [.insertAttempt k, .sleep 30]))) ∧
    countInserts (InsertMedia getMedia insert).2 ≤ 12 := by
  refine ⟨?_, by decide, ?_, ?_, ?_, ?_⟩
  · intro s hs hne
    have h := statusLoop_never getMedia s hs hne 30 0 [] (by omega) (by omega)
    simp only [InsertMedia, h]
    simp [statusFailTrace, List.range_eq_range']
  · intro h1
    have hone : statusLoop getMedia 30 0 [] = (.ok (), [.statusCheck 0]) := by
      have h30 : (30 : Nat) = 29 + 1 := rfl
      rw [h30, statusLoop]
      simp [h1]
    simp only [InsertMedia, hone]
  · intro h1 e hins hnr
    have hone : statusLoop getMedia 30 0 [] = (.ok (), [.statusCheck 0]) := by
      have h30 : (30 : Nat) = 29 + 1 := rfl
      rw [h30, statusLoop]
      simp [h1]
    have hins1 : insertLoop insert 12 0 "" [MediaEvent.statusCheck 0] =
        (.error ("error inserting media: " ++ e),
          [.statusCheck 0, .insertAttempt 0]) := by
      have h12 : (12 : Nat) = 11 + 1 := rfl
      rw [h12, insertLoop]
      simp [hins, hnr]
    simp only [InsertMedia, hone, hins1]
  · intro h1 e he hr
    have hone : statusLoop getMedia 30 0 [] = (.ok (), [.statusCheck 0]) := by
      have h30 : (30 : Nat) = 29 + 1 := rfl
      rw [h30, statusLoop]
      simp [h1]
    have h := insertLoop_exhausted insert e he hr 12 0 "" [MediaEvent.statusCheck 0]
      (by omega) (by omega)
    simp only [InsertMedia, hone, h]
    simp
  · rcases hsl : statusLoop getMedia 30 0 [] with ⟨res, trace⟩
    have hzero : countInserts trace = 0 := by
      have h := statusLoop_no_inserts getMedia 30 0 []
      rw [hsl] at h
      exact h.trans rfl
    rcases res with e | u
    · simp only [InsertMedia, hsl]
      omega
    · simp only [InsertMedia, hsl]
      have hi := insertLoop_count insert 12 0 "" trace
      omega

/-- **C7, witness.** The poll-then-retry theorem at concrete schedules: media
stuck at status 0 fails after the 30-poll budget with no insert attempt, and a
resolved media whose insert fails with a non-retryable text returns that error
after exactly one attempt. -/
theorem insertMedia_poll_then_retry_witness :
    InsertMedia (fun _ => .ok 0) (fun _ => none) =
      (.error "media never reached RESOLVED status", statusFailTrace) ∧
    InsertMedia (fun _ => .ok 1) (fun _ => some "boom") =
      (.error ("error inserting media: " ++ "boom"),
        [.statusCheck 0, .insertAttempt 0]) := by
  constructor
  · exact (insertMedia_poll_then_retry (fun _ => .ok 0) (fun _ => none)).1
      (fun _ => 0) (fun i _ => rfl) (fun i _ h => by simp at h)
  · exact (insertMedia_poll_then_retry (fun _ => .ok 1)
      (fun _ => some "boom")).2.2.2.1 rfl "boom" rfl (by decide)

/-! ### Catalog stage (`StepCreateTempCatalog`, src/unnamed/part_009)

Cloud lookups and creation are passed in as result-valued parameters; handles
are bare numbers.  `Run` returns the step action and the state bag it wrote;
`Cleanup` returns whether it invokes `DeleteCatalog`. -/

/-- The state-bag keys written or read by `StepCreateTempCatalog`. -/
structure CatalogBag where
  catalog : Option Nat := none
  adminCatalog : Option Nat := none
  catalogName : Option String := none
  tempCatalog : Option Bool := none
  vdc : Option Nat := none
  error : Option String := none
deriving DecidableEq

/-- Storage-profile resolution of `StepCreateTempCatalog.Run`: with a VDC name,
fetch the VDC and use the named storage profile when given, else the VDC's first
(default) profile when present. -/
def resolveVdcProfile (vdcName storageProfile : String)
    (getVdc : String → Except String Nat)
    (findProfile : Nat → String → Except String Nat)
    (vdcDefaultProfile : Nat → Option Nat) :
    Except String (Option Nat × Option Nat) :=
  if vdcName ≠ "" then
    match getVdc vdcName with
    | .error e => .error ("error getting VDC for storage profile: " ++ e)
    | .ok vdc =>
      if storageProfile ≠ "" then
        match findProfile vdc storageProfile with
        | .error e => .error ("error finding storage profile: " ++ e)
        | .ok sp => .ok (some vdc, some sp)
      else
        match vdcDefaultProfile vdc with
        | some sp => .ok (some vdc, some sp)
        | none => .ok (some vdc, none)
  else .ok (none, none)

/-- `StepCreateTempCatalog.Run` (src/unnamed/part_009): use the caller-named
catalog and record `temp_catalog=false`, or create a catalog named
`pfx ++ nowNano` (after resolving the VDC storage profile) and record
`temp_catalog=true` together with the admin-catalog handle. -/
def StepCreateTempCatalog_Run (isoCatalog pfx vdcName storageProfile : String)
    (getCatalog : String → Except String Nat) (getVdc : String → Except String Nat)
    (findProfile : Nat → String → Except String Nat)
    (vdcDefaultProfile : Nat → Option Nat)
    (createCatalog : String → Option Nat → Except String Nat) (nowNano : Nat) :
    StepAction × CatalogBag :=
  let bag : CatalogBag := {}
  if isoCatalog ≠ "" then
    match getCatalog isoCatalog with
    | .error e =>
      (.actionHalt, { bag with error := some ("error getting catalog: " ++ e) })
    | .ok cat =>
      (.actionContinue,
        { bag with catalog := some cat, catalogName := some isoCatalog,
                   tempCatalog := some false })
  else
    let catalogName := pfx ++ toString nowNano
    match resolveVdcProfile vdcName storageProfile getVdc findProfile
        vdcDefaultProfile with
    | .error e => (.actionHalt, { bag with error := some e })
    | .ok (vdcOpt, spOpt) =>
      let bag := { bag with vdc := vdcOpt }
      match createCatalog catalogName spOpt with
      | .error e =>
        (.actionHalt,
          { bag with error := some ("error creating temporary catalog: " ++ e) })
      | .ok adminCat =>
        match getCatalog catalogName with
        | .error e =>
          (.actionHalt,
            { bag with error := some ("error getting created catalog: " ++ e) })
        | .ok cat =>
          (.actionContinue,
            { bag with catalog := some cat, adminCatalog := some adminCat,
                       catalogName := some catalogName, tempCatalog := some true })

/-- `StepCreateTempCatalog.Cleanup` (src/unnamed/part_009): `true` exactly when
it calls `DeleteCatalog` — requires `temp_catalog` present and true and the
admin-catalog handle present. -/
def StepCreateTempCatalog_Cleanup (bag : CatalogBag) : Bool :=
  match bag.tempCatalog with
  | none => false
  | some t =>
    if t then
      match bag.adminCatalog with
      | none => false
      | some _ => true
    else false

/-- **C9.** A caller-supplied catalog records `temp_catalog=false` and its
cleanup never deletes; without one the stage creates a catalog named prefix plus
nanosecond timestamp and records `temp_catalog=true`, whose cleanup deletes it;
and over every outcome of `Run` the cleanup deletes exactly when
`temp_catalog=true` was recorded. -/
theorem stepCreateTempCatalog_ownership (isoCatalog pfx vdcName storageProfile : String)
    (getCatalog : String → Except String Nat) (getVdc : String → Except String Nat)
    (findProfile : Nat → String → Except String Nat)
    (vdcDefaultProfile : Nat → Option Nat)
    (createCatalog : String → Option Nat → Except String Nat) (nowNano : Nat) :
    (isoCatalog ≠ "" →
      StepCreateTempCatalog_Cleanup
        (StepCreateTempCatalog_Run isoCatalog pfx vdcName storageProfile getCatalog
          getVdc findProfile vdcDefaultProfile createCatalog nowNano).2 = false ∧
      (∀ cat, getCatalog isoCatalog = .ok cat →
        (StepCreateTempCatalog_Run isoCatalog pfx vdcName storageProfile getCatalog
          getVdc findProfile vdcDefaultProfile createCatalog nowNano).1 =
            .actionContinue ∧
        (StepCreateTempCatalog_Run isoCatalog pfx vdcName storageProfile getCatalog
          getVdc findProfile vdcDefaultProfile createCatalog nowNano).2.tempCatalog =
            some false)) ∧
    (isoCatalog = "" →
      (StepCreateTempCatalog_Run isoCatalog pfx vdcName storageProfile getCatalog
        getVdc findProfile vdcDefaultProfile createCatalog nowNano).1 =
          .actionContinue →
      (StepCreateTempCatalog_Run isoCatalog pfx vdcName storageProfile getCatalog
        getVdc findProfile vdcDefaultProfile createCatalog nowNano).2.catalogName =
          some (pfx ++ toString nowNano) ∧
      (StepCreateTempCatalog_Run isoCatalog pfx vdcName storageProfile getCatalog
        getVdc findProfile vdcDefaultProfile createCatalog nowNano).2.tempCatalog =
          some true ∧
      StepCreateTempCatalog_Cleanup
        (StepCreateTempCatalog_Run isoCatalog pfx vdcName storageProfile getCatalog
          getVdc findProfile vdcDefaultProfile createCatalog nowNano).2 = true) ∧
    (StepCreateTempCatalog_Cleanup
        (StepCreateTempCatalog_Run isoCatalog pfx vdcName storageProfile getCatalog
          getVdc findProfile vdcDefaultProfile createCatalog nowNano).2 = true ↔
      (StepCreateTempCatalog_Run isoCatalog pfx vdcName storageProfile getCatalog
        getVdc findProfile vdcDefaultProfile createCatalog nowNano).2.tempCatalog =
          some true) := by
  by_cases hiso : isoCatalog = ""
  · simp only [StepCreateTempCatalog_Run, hiso, ne_eq, not_true_eq_false,
      Bool.false_eq_true, if_false, ite_false]
    refine ⟨fun h => h.elim, ?_, ?_⟩ <;>
    · rcases hres : resolveVdcProfile vdcName storageProfile getVdc findProfile
          vdcDefaultProfile with e | vsp
      · simp [hres, StepCreateTempCatalog_Cleanup]
      · rcases vsp with ⟨vdcOpt, spOpt⟩
        rcases hcr : createCatalog (pfx ++ toString nowNano) spOpt with e | adminCat
        · simp [hres, hcr, StepCreateTempCatalog_Cleanup]
        · rcases hgc : getCatalog (pfx ++ toString nowNano) with e | cat
          · simp [hres, hcr, hgc, StepCreateTempCatalog_Cleanup]
          · simp [hres, hcr, hgc, StepCreateTempCatalog_Cleanup]
  · simp only [StepCreateTempCatalog_Run, hiso, ne_eq, not_false_eq_true, if_true,
      ite_true]
    rcases hgc : getCatalog isoCatalog with e | cat
    · simp [hgc, StepCreateTempCatalog_Cleanup]
    · simp [hgc, StepCreateTempCatalog_Cleanup]

/-- **C9, witness.** The ownership theorem at concrete effects: with the
caller-named catalog `cat` the cleanup does not delete; with no name the stage
makes `packer-123`, records `temp_catalog=true` and its cleanup deletes. -/
theorem stepCreateTempCatalog_ownership_witness :
    StepCreateTempCatalog_Cleanup
      (StepCreateTempCatalog_Run "cat" "packer-" "" "" (fun _ => .ok 7)
        (fun _ => .error "no vdc") (fun _ _ => .error "no profile") (fun _ => none)
        (fun _ _ => .ok 9) 123).2 = false ∧
    ((StepCreateTempCatalog_Run "" "packer-" "" "" (fun _ => .ok 7)
        (fun _ => .error "no vdc") (fun _ _ => .error "no profile") (fun _ => none)
        (fun _ _ => .ok 9) 123).2.catalogName = some ("packer-" ++ toString 123) ∧
      (StepCreateTempCatalog_Run "" "packer-" "" "" (fun _ => .ok 7)
        (fun _ => .error "no vdc") (fun _ _ => .error "no profile") (fun _ => none)
        (fun _ _ => .ok 9) 123).2.tempCatalog = some true ∧
      StepCreateTempCatalog_Cleanup
        (StepCreateTempCatalog_Run "" "packer-" "" "" (fun _ => .ok 7)
          (fun _ => .error "no vdc") (fun _ _ => .error "no profile") (fun _ => none)
          (fun _ _ => .ok 9) 123).2 = true) := by
  constructor
  · exact ((stepCreateTempCatalog_ownership "cat" "packer-" "" "" (fun _ => .ok 7)
      (fun _ => .error "no vdc") (fun _ _ => .error "no profile") (fun _ => none)
      (fun _ _ => .ok 9) 123).1 (by decide)).1
  · exact (stepCreateTempCatalog_ownership "" "packer-" "" "" (fun _ => .ok 7)
      (fun _ => .error "no vdc") (fun _ _ => .error "no profile") (fun _ => none)
      (fun _ _ => .ok 9) 123).2.1 rfl rfl

/-! ### Boot-info-table patch (`ISOModifier.patchBootInfoTable` /
`findBootFileLBA` / `findFileSizeFromDirectory`, src/unnamed/part_007)

The finalized output image is a byte function; `ReadAt`/`WriteAt` become reads
of that function and a function update over the written range. -/

/-- `binary.LittleEndian.Uint16` at `off`. -/
def le16At (img : Nat → Nat) (off : Nat) : Nat :=
  byteAt img off + 256 * byteAt img (off + 1)

/-- `binary.LittleEndian.Uint32` at `off`. -/
def le32At (img : Nat → Nat) (off : Nat) : Nat :=
  byteAt img off + 256 * byteAt img (off + 1) + 65536 * byteAt img (off + 2) +
    16777216 * byteAt img (off + 3)

/-- Byte `k` of `binary.LittleEndian.PutUint32 v`. -/
def le32Byte (v k : Nat) : Nat := (v >>> (8 * k)) % 256

/-- Go `strings.Trim(s, "/")` over the char list (both ends). -/
def trimChar (c : Char) (s : List Char) : List Char :=
  ((s.dropWhile (· = c)).reverse.dropWhile (· = c)).reverse

/-- `strings.Split(strings.Trim(filePath, "/"), "/")`. -/
def splitPathParts (filePath : String) : List (List Char) :=
  splitChar (Char.ofNat 47) (trimChar (Char.ofNat 47) filePath.data)

/-- Strip an ISO name's `;1` version: truncate at the first `;` when it is not
the leading character (Go `strings.Index` guarded by `idx > 0`). -/
def truncAtSemicolon (name : List Nat) : List Nat :=
  match name.findIdx? (· == 59) with
  | some idx => if 0 < idx then name.take idx else name
  | none => name

/-- `strings.TrimSuffix(name, ".")`: drop one trailing dot. -/
def trimSuffixDot (name : List Nat) : List Nat :=
  if name.getLast? = some 46 then name.dropLast else name

/-- Case-insensitive match of a directory-record name (bytes) against a path
component (Go `strings.EqualFold` on ASCII). -/
def eqFoldBytes (name : List Nat) (part : List Char) : Bool :=
  name.map asciiLower == (part.map Char.toNat).map asciiLower

/-- The directory-record scan of `findFileSizeFromDirectory`: walk records from
`offset`, jumping to the next 2048-byte sector on a zero record length, and on
a case-insensitive name match return the record's extent LBA and data length
(fields at offsets 2 and 10).  Fuel bounds the strictly-increasing offset. -/
def scanDir (img : Nat → Nat) (dirBase dirLen : Nat) (part : List Char) :
    Nat → Nat → Option (Nat × Nat)
  | 0, _ => none
  | fuel + 1, offset =>
    if offset < dirLen then
      let recordLen := byteAt img (dirBase + offset)
      if recordLen = 0 then
        let offset' := ((offset / 2048) + 1) * 2048
        if dirLen ≤ offset' then none
        else scanDir img dirBase dirLen part fuel offset'
      else
        let nameLen := byteAt img (dirBase + offset + 32)
        if 0 < nameLen ∧ offset + 33 + nameLen ≤ dirLen then
          let name := trimSuffixDot (truncAtSemicolon
            (readBytes img (dirBase + offset + 33) nameLen))
          if eqFoldBytes name part then
            some (le32At img (dirBase + offset + 2),
              le32At img (dirBase + offset + 10))
          else scanDir img dirBase dirLen part fuel (offset + recordLen)
        else scanDir img dirBase dirLen part fuel (offset + recordLen)
    else none

/-- The path descent of `findFileSizeFromDirectory`: for the last component a
match yields the file size; earlier components descend into the matched
directory; a miss on a non-final component is `directory not found`, on the
final one `file not found`. -/
def walkParts (img : Nat → Nat) : List (List Char) → Nat → Nat → Except String Nat
  | [], _, _ => .error "file not found"
  | part :: restParts, currentLBA, currentLen =>
    match scanDir img (currentLBA * 2048) currentLen part (currentLen + 1) 0 with
    | some (lba, len) =>
      if restParts = [] then .ok len
      else walkParts img restParts lba len
    | none =>
      if restParts = [] then .error "file not found"
      else .error "directory not found"

/-- `findFileSizeFromDirectory` (src/unnamed/part_007): root directory record at
offset 156 of the primary volume descriptor (sector 16), then walk the path. -/
def findFileSizeFromDirectory (img : Nat → Nat) (filePath : String) :
    Except String Nat :=
  let rootDirLBA := le32At img (16 * 2048 + 156 + 2)
  let rootDirLen := le32At img (16 * 2048 + 156 + 10)
  walkParts img (splitPathParts filePath) rootDirLBA rootDirLen

/-- `findBootFileLBA` (src/unnamed/part_007): check the El-Torito boot record at
sector 17 (the `EL TORITO SPECIFICATION` comparison in the source has an empty
body and is omitted), read the boot-catalog LBA at offset 71, check the
validation entry and the bootable flag `0x88`, read the boot file's LBA from the
default entry, and take its length from the directory walk — falling back to
the entry's 512-byte sector count, floored at a 64 KiB default. -/
def findBootFileLBA (img : Nat → Nat) (bootImagePath : String) :
    Except String (Nat × Nat) :=
  if ¬(byteAt img (17 * 2048) = 0 ∧
      readBytes img (17 * 2048 + 1) 5 = asciiBytes "CD001") then
    .error "invalid boot record descriptor"
  else
    let bootCatalogLBA := le32At img (17 * 2048 + 71)
    if ¬(byteAt img (bootCatalogLBA * 2048) = 1) then
      .error "invalid boot catalog validation entry"
    else if ¬(byteAt img (bootCatalogLBA * 2048 + 32) = 0x88) then
      .error "default boot entry not bootable"
    else
      let bootFileLBA := le32At img (bootCatalogLBA * 2048 + 32 + 8)
      let bootFileLen :=
        match findFileSizeFromDirectory img bootImagePath with
        | .ok n => n
        | .error _ =>
          let fallback := le16At img (bootCatalogLBA * 2048 + 32 + 6) * 512
          if fallback < 2048 then 64 * 1024 else fallback
      .ok (bootFileLBA, bootFileLen)

/-- The checksum loop of `patchBootInfoTable`: wrap-around `uint32` sum of the
little-endian 32-bit words from offset 64 of the boot image while a full word
remains (`for i := 64; i+4 <= len; i += 4`). -/
def bootChecksum (img : Nat → Nat) (off len : Nat) : Nat :=
  (List.range ((len - 64) / 4)).foldl
    (fun acc k => (acc + le32At img (off + 64 + 4 * k)) % 4294967296) 0

/-- The image after `patchBootInfoTable`'s `WriteAt`: inside the boot-file range
the buffer bytes (offsets 8–23 replaced by the four little-endian fields,
everything else the bytes `ReadAt` had loaded), outside it the image unchanged. -/
def patchedImage (img : Nat → Nat) (bootFileLBA bootFileLen : Nat) : Nat → Nat :=
  fun j =>
    if bootFileLBA * 2048 ≤ j ∧ j < bootFileLBA * 2048 + bootFileLen then
      if 8 ≤ j - bootFileLBA * 2048 ∧ j - bootFileLBA * 2048 < 12 then
        le32Byte 16 (j - bootFileLBA * 2048 - 8)
      else if 12 ≤ j - bootFileLBA * 2048 ∧ j - bootFileLBA * 2048 < 16 then
        le32Byte (bootFileLBA % 4294967296) (j - bootFileLBA * 2048 - 12)
      else if 16 ≤ j - bootFileLBA * 2048 ∧ j - bootFileLBA * 2048 < 20 then
        le32Byte (bootFileLen % 4294967296) (j - bootFileLBA * 2048 - 16)
      else if 20 ≤ j - bootFileLBA * 2048 ∧ j - bootFileLBA * 2048 < 24 then
        le32Byte (bootChecksum img (bootFileLBA * 2048) bootFileLen)
          (j - bootFileLBA * 2048 - 20)
      else byteAt img (bootFileLBA * 2048 + (j - bootFileLBA * 2048))
    else byteAt img j

/-- `patchBootInfoTable` (src/unnamed/part_007) on the finalized image: locate
the boot file, read it, compute the checksum over bytes 64.., overwrite offsets
8–23 with `bi_pvd=16`, `bi_file`, `bi_length`, `bi_csum` (uint32 values), and
write the buffer back.  The result is the patched image; a boot file shorter
than 24 bytes would make the Go slice writes panic, modelled as an error. -/
def patchBootInfoTable (img : Nat → Nat) (bootImagePath : String) :
    Except String (Nat → Nat) :=
  match findBootFileLBA img bootImagePath with
  | .error e => .error ("failed to find boot file LBA: " ++ e)
  | .ok (bootFileLBA, bootFileLen) =>
    if bootFileLen < 24 then .error "panic: boot image shorter than the table"
    else .ok (patchedImage img bootFileLBA bootFileLen)

lemma byteAt_lt (img : Nat → Nat) (i : Nat) : byteAt img i < 256 :=
  Nat.mod_lt _ (by norm_num)

lemma le32At_lt (img : Nat → Nat) (off : Nat) : le32At img off < 4294967296 := by
  have h0 := byteAt_lt img off
  have h1 := byteAt_lt img (off + 1)
  have h2 := byteAt_lt img (off + 2)
  have h3 := byteAt_lt img (off + 3)
  unfold le32At
  omega

lemma le32At_eq_of_bytes (p : Nat → Nat) (off v : Nat) (hv : v < 4294967296)
    (h : ∀ k, k < 4 → p (off + k) = le32Byte v k) : le32At p off = v := by
  have h0 : p off = le32Byte v 0 := by simpa using h 0 (by norm_num)
  have h1 := h 1 (by norm_num)
  have h2 := h 2 (by norm_num)
  have h3 := h 3 (by norm_num)
  have e0 : le32Byte v 0 = v % 256 := by
    simp [le32Byte]
  have e1 : le32Byte v 1 = v / 256 % 256 := by
    simp [le32Byte, Nat.shiftRight_eq_div_pow]
  have e2 : le32Byte v 2 = v / 65536 % 256 := by
    rw [le32Byte, Nat.shiftRight_eq_div_pow]
  have e3 : le32Byte v 3 = v / 16777216 % 256 := by
    rw [le32Byte, Nat.shiftRight_eq_div_pow]
  rw [e0] at h0
  rw [e1] at h1
  rw [e2] at h2
  rw [e3] at h3
  unfold le32At byteAt
  rw [h0, h1, h2, h3]
  omega

lemma foldl_mod_eq_sum_mod :
    ∀ (l : List Nat) (a : Nat), a < 4294967296 →
      l.foldl (fun acc x => (acc + x) % 4294967296) a = (a + l.sum) % 4294967296 := by
  intro l
  induction l with
  | nil => intro a ha; simpa using (Nat.mod_eq_of_lt ha).symm
  | cons x l ih =>
    intro a ha
    simp only [List.foldl_cons, List.sum_cons]
    rw [ih ((a + x) % 4294967296) (Nat.mod_lt _ (by norm_num)), Nat.mod_add_mod]
    congr 1
    omega

lemma bootChecksum_eq_sum (img : Nat → Nat) (off len : Nat) :
    bootChecksum img off len =
      ((List.range ((len - 64) / 4)).map
        (fun k => le32At img (off + 64 + 4 * k))).sum % 4294967296 := by
  unfold bootChecksum
  rw [← List.foldl_map (fun k => le32At img (off + 64 + 4 * k))
    (fun acc x => (acc + x) % 4294967296)]
  rw [foldl_mod_eq_sum_mod _ 0 (by norm_num)]
  simp

lemma findBootFileLBA_lba_lt {img : Nat → Nat} {path : String} {lba len : Nat}
    (hfind : findBootFileLBA img path = .ok (lba, len)) : lba < 4294967296 := by
  simp only [findBootFileLBA] at hfind
  by_cases hA : byteAt img (17 * 2048) = 0 ∧
      readBytes img (17 * 2048 + 1) 5 = asciiBytes "CD001"
  · rw [if_neg (not_not_intro hA)] at hfind
    by_cases hB : byteAt img (le32At img (17 * 2048 + 71) * 2048) = 1
    · rw [if_neg (not_not_intro hB)] at hfind
      by_cases hC : byteAt img (le32At img (17 * 2048 + 71) * 2048 + 32) = 136
      · rw [if_neg (not_not_intro hC)] at hfind
        injection hfind with hpair
        have h := congrArg Prod.fst hpair
        simp only at h
        rw [← h]
        exact le32At_lt _ _
      · rw [if_pos hC] at hfind
        exact Except.noConfusion hfind
    · rw [if_pos hB] at hfind
      exact Except.noConfusion hfind
  · rw [if_pos hA] at hfind
    exact Except.noConfusion hfind

/-- A concrete finalized image: El-Torito boot record at sector 17 pointing at a
catalog in sector 19, whose default entry (bootable, 4 load sectors) points at a
2048-byte boot file at LBA 20 carrying `0xAB` at its offset 24; the primary
volume descriptor's root directory is empty, so the length comes from the
El-Torito fallback. -/
def bootPatchSample : Nat → Nat := fun j =>
  if j = 34816 then 0        -- sector 17: boot record type 0
  else if j = 34817 then 67  -- 'C'
  else if j = 34818 then 68  -- 'D'
  else if j = 34819 then 48  -- '0'
  else if j = 34820 then 48  -- '0'
  else if j = 34821 then 49  -- '1'
  else if j = 34887 then 19  -- boot catalog LBA
  else if j = 38912 then 1   -- catalog validation header
  else if j = 38944 then 136 -- default entry bootable (0x88)
  else if j = 38950 then 4   -- sector count
  else if j = 38952 then 20  -- boot file LBA
  else if j = 40984 then 171 -- boot file byte 24
  else 0

/-- **C1, counterexample.** The patch does not zero bytes 24–55 of the boot
file: on `bootPatchSample`, whose boot file carries `0xAB` at offset 24,
`patchBootInfoTable` succeeds and the output image still holds `0xAB` (171)
there, so "the 32 bytes at offsets 24–55 are zero" fails. -/
theorem patchBootInfoTable_counterexample :
    (patchBootInfoTable bootPatchSample "isolinux/isolinux.bin").map
        (fun p => p (20 * 2048 + 24)) =
      .ok 171 := rfl

/-- **C1, amended.** After `patchBootInfoTable` finalizes the output image, the
boot-info-table at offset 8 of the boot file located by `findBootFileLBA`
(walking the El-Torito boot record at sector 17 and the directory records for
the length) satisfies: `bi_pvd = 16`; `bi_file` = the boot file's LBA;
`bi_length` = the computed boot-file length (as uint32); `bi_csum` = the sum
modulo 2^32 of the little-endian 32-bit words of the patched boot file from
offset 64 while a full word remains.  The 32 bytes at offsets 24–55 are left
unchanged from the pre-patch boot file — they are not forced to zero. -/
theorem patchBootInfoTable_writes_table (img : Nat → Nat) (path : String)
    (lba len : Nat) (hfind : findBootFileLBA img path = .ok (lba, len))
    (hlen : 56 ≤ len) :
    ∃ p, patchBootInfoTable img path = .ok p ∧
      le32At p (lba * 2048 + 8) = 16 ∧
      le32At p (lba * 2048 + 12) = lba ∧
      le32At p (lba * 2048 + 16) = len % 4294967296 ∧
      le32At p (lba * 2048 + 20) =
        ((List.range ((len - 64) / 4)).map
          (fun k => le32At p (lba * 2048 + 64 + 4 * k))).sum % 4294967296 ∧
      ∀ i, 24 ≤ i → i < 56 → p (lba * 2048 + i) = byteAt img (lba * 2048 + i) := by
  have hlba := findBootFileLBA_lba_lt hfind
  have hagree : ∀ x, lba * 2048 + 24 ≤ x →
      patchedImage img lba len x = byteAt img x := by
    intro x hx
    unfold patchedImage
    by_cases hin : lba * 2048 ≤ x ∧ x < lba * 2048 + len
    · rw [if_pos hin, if_neg (by omega), if_neg (by omega), if_neg (by omega),
        if_neg (by omega)]
      congr 1
      omega
    · rw [if_neg hin]
  have hbyte : ∀ x, lba * 2048 + 24 ≤ x →
      byteAt (patchedImage img lba len) x = byteAt img x := by
    intro x hx
    have h := hagree x hx
    unfold byteAt at *
    omega
  have hle32agree : ∀ y, lba * 2048 + 24 ≤ y →
      le32At (patchedImage img lba len) y = le32At img y := by
    intro y hy
    unfold le32At
    rw [hbyte y (by omega), hbyte (y + 1) (by omega), hbyte (y + 2) (by omega),
      hbyte (y + 3) (by omega)]
  refine ⟨patchedImage img lba len, ?_, ?_, ?_, ?_, ?_, ?_⟩
  · simp only [patchBootInfoTable, hfind]
    rw [if_neg (by omega)]
  · refine le32At_eq_of_bytes _ _ 16 (by norm_num) ?_
    intro k hk
    unfold patchedImage
    have harith : lba * 2048 + 8 + k - lba * 2048 = 8 + k := by omega
    rw [if_pos (by omega)]
    rw [harith]
    rw [if_pos (by omega)]
    congr 1
    omega
  · refine le32At_eq_of_bytes _ _ lba (by omega) ?_
    intro k hk
    unfold patchedImage
    have harith : lba * 2048 + 12 + k - lba * 2048 = 12 + k := by omega
    rw [if_pos (by omega)]
    rw [harith]
    rw [if_neg (by omega), if_pos (by omega)]
    rw [Nat.mod_eq_of_lt hlba]
    congr 1
    omega
  · refine le32At_eq_of_bytes _ _ (len % 4294967296)
      (Nat.mod_lt _ (by norm_num)) ?_
    intro k hk
    unfold patchedImage
    have harith : lba * 2048 + 16 + k - lba * 2048 = 16 + k := by omega
    rw [if_pos (by omega)]
    rw [harith]
    rw [if_neg (by omega), if_neg (by omega), if_pos (by omega)]
    congr 1
    omega
  · have hcs : le32At (patchedImage img lba len) (lba * 2048 + 20) =
        bootChecksum img (lba * 2048) len := by
      refine le32At_eq_of_bytes _ _ _ ?_ ?_
      · rw [bootChecksum_eq_sum]
        exact Nat.mod_lt _ (by norm_num)
      · intro k hk
        unfold patchedImage
        have harith : lba * 2048 + 20 + k - lba * 2048 = 20 + k := by omega
        rw [if_pos (by omega)]
        rw [harith]
        rw [if_neg (by omega), if_neg (by omega), if_neg (by omega),
          if_pos (by omega)]
        congr 1
        omega
    rw [hcs, bootChecksum_eq_sum]
    congr 2
    refine List.map_congr_left ?_
    intro k _
    exact (hle32agree (lba * 2048 + 64 + 4 * k) (by omega)).symm
  · intro i h24 h56
    rw [hagree (lba * 2048 + i) (by omega)]

/-- **C1, witness.** The amended patch theorem at the concrete image
`bootPatchSample`: the boot file is found at LBA 20 with length 2048, and the
patched output carries the four boot-info-table fields with bytes 24–55 left as
they were. -/
theorem patchBootInfoTable_writes_table_witness :
    findBootFileLBA bootPatchSample "isolinux/isolinux.bin" = .ok (20, 2048) ∧
    (∃ p, patchBootInfoTable bootPatchSample "isolinux/isolinux.bin" = .ok p ∧
      le32At p (20 * 2048 + 8) = 16 ∧
      le32At p (20 * 2048 + 12) = 20 ∧
      le32At p (20 * 2048 + 16) = 2048 % 4294967296 ∧
      le32At p (20 * 2048 + 20) =
        ((List.range ((2048 - 64) / 4)).map
          (fun k => le32At p (20 * 2048 + 64 + 4 * k))).sum % 4294967296 ∧
      ∀ i, 24 ≤ i → i < 56 →
        p (20 * 2048 + i) = byteAt bootPatchSample (20 * 2048 + i)) :=
  ⟨rfl, patchBootInfoTable_writes_table bootPatchSample "isolinux/isolinux.bin"
    20 2048 rfl (by norm_num)⟩

end PackerVCD
